import Mathlib

/-!
Shallow embedding of the KiCAD-Prism asynchronous job engine
(`src/backend/app/services/{diff_service,project_service,project_import_service}.py`)
and proofs about the job-status contract, the visual-diff manifest, the
progress normalizers, repository analysis, and asset-path resolution.

Python strings are modelled as `List Char` (`Str`, with executable
re-implementations of the `str` methods the services use), numbers stored
in job records as `ℚ` (the services mix `int` and `float` in the same
`percent` field; `pyInt` is the truncating Python `int()`), and dicts as
association lists.  Filesystem and external tools are modelled at the
boundary: tool outcomes (exit codes, produced file names, parse results)
are inputs to the embedded pipeline functions.
-/

namespace KiCadPrism

/-- A Python string. -/
abbrev Str := List Char

/-- `str.lower()` (the repository only lowercases ASCII names). -/
def pyLower (s : Str) : Str := s.map Char.toLower

/-- `s.startswith(pre)`. -/
def pyStartsWith (s pre : Str) : Bool := pre.isPrefixOf s

/-- `s.endswith(suf)`. -/
def pyEndsWith (s suf : Str) : Bool := suf.isSuffixOf s

/-- `s.split(c)` for a one-character separator (the services split only
on `'/'`). -/
def pySplitChar (c : Char) : Str → List Str
  | [] => [[]]
  | x :: xs =>
    let r := pySplitChar c xs
    if x = c then [] :: r
    else
      match r with
      | [] => [[x]]
      | h :: t => (x :: h) :: t

/-- `s.rstrip(c)` for a one-character strip set. -/
def pyRstrip (s : Str) (c : Char) : Str :=
  (s.reverse.dropWhile (fun x => x = c)).reverse

/-- One step bound for `pyReplace`: each step consumes at least one
character of the subject, so `s.length` steps suffice. -/
def pyReplaceAux (old new : Str) : ℕ → Str → Str
  | 0, s => s
  | _ + 1, [] => []
  | fuel + 1, c :: cs =>
    if old.isPrefixOf (c :: cs) then
      new ++ pyReplaceAux old new fuel ((c :: cs).drop old.length)
    else c :: pyReplaceAux old new fuel cs

/-- `s.replace(old, new)`: all non-overlapping occurrences, left to
right.  The services never call it with an empty pattern. -/
def pyReplace (s old new : Str) : Str :=
  if old = [] then s else pyReplaceAux old new s.length s

/-- Python string `<=` (lexicographic by code point). -/
def pyStrLe : Str → Str → Bool
  | [], _ => true
  | _ :: _, [] => false
  | a :: as, b :: bs => if a = b then pyStrLe as bs else decide (a < b)

/-- Stable insertion into an ascending list (ties keep the inserted
element first, as a stable sort of the original order requires). -/
def pyInsert (le : α → α → Bool) (x : α) : List α → List α
  | [] => [x]
  | y :: ys => if le x y then x :: y :: ys else y :: pyInsert le x ys

/-- The Python `sorted`/`list.sort`: a stable ascending sort.  All stable
sorts by a total `le` agree, so insertion sort models Timsort. -/
def pySortBy (le : α → α → Bool) : List α → List α
  | [] => []
  | x :: xs => pyInsert le x (pySortBy le xs)

/-- Decimal digits of a natural number (`fuel`-bounded recursion;
`n + 1` steps always suffice). -/
def natToStrAux : ℕ → ℕ → Str
  | 0, _ => []
  | fuel + 1, n =>
    if n < 10 then [Char.ofNat (48 + n)]
    else natToStrAux fuel (n / 10) ++ [Char.ofNat (48 + n % 10)]

/-- `str(n)` for a natural number. -/
def natToStr (n : ℕ) : Str := natToStrAux (n + 1) n

/-- `str(i)` for an integer. -/
def intToStr (i : ℤ) : Str :=
  if i < 0 then '-' :: natToStr i.natAbs else natToStr i.natAbs

/-- Python `int()` on a rational: truncation toward zero. -/
def pyInt (q : ℚ) : ℤ :=
  if 0 ≤ q then ⌊q⌋ else ⌈q⌉

/-- Python truthiness of an optional string (`os.environ.get(...)`):
`None` and the empty string are falsy. -/
def strTruthy : Option Str → Bool
  | none => false
  | some s => s ≠ []

/-- Job status values used by all three job stores (`'running'`,
`'completed'`, `'failed'` strings in the source). -/
inductive JobStatus where
  | running
  | completed
  | failed
deriving DecidableEq, Repr

/-- Dictionary lookup, Python `d.get(k)` (also `d[k]` / `k in d`). -/
def dictGet [DecidableEq κ] (k : κ) : List (κ × α) → Option α
  | [] => none
  | (k', v) :: rest => if k' = k then some v else dictGet k rest

/-- Dictionary write, Python `d[k] = v` (update in place, else append). -/
def dictSet [DecidableEq κ] (k : κ) (v : α) : List (κ × α) → List (κ × α)
  | [] => [(k, v)]
  | (k', v') :: rest =>
    if k' = k then (k, v) :: rest else (k', v') :: dictSet k v rest

/-- Dictionary removal, Python `del d[k]` (keys are unique in a dict, so
removing every binding of `k` is the same operation). -/
def dictDel [DecidableEq κ] (k : κ) : List (κ × α) → List (κ × α)
  | [] => []
  | (k', v') :: rest =>
    if k' = k then dictDel k rest else (k', v') :: dictDel k rest

/-- Python `sorted` on strings. -/
def pySorted (l : List Str) : List Str := pySortBy pyStrLe l

namespace ProjectService

/-- Mutable fields of a `project_service.jobs[job_id]` record that the
claims observe. -/
structure JobRec where
  status : JobStatus
  message : Str
  percent : ℚ
  logs : List Str
  error : Option Str
deriving DecidableEq, Repr

/-- `project_service.CloneProgress.update` (lines 245-257): stores the raw
`(cur_count / max_count) * 100` float with no clamp; `percent = 0` when
`max_count` is falsy; non-empty messages are appended to the log with a
`[GIT] ` prefix. -/
def cloneProgressUpdate (j : JobRec) (curCount : ℚ) (maxCount : Option ℚ)
    (message : Str) : JobRec :=
  let percent : ℚ :=
    match maxCount with
    | some m => if m ≠ 0 then curCount / m * 100 else 0
    | none => 0
  { j with
    percent := percent
    message := if message ≠ [] then message
               else "Processing... ".data ++ intToStr (pyInt percent) ++ "%".data
    logs := if message ≠ [] then j.logs ++ ["[GIT] ".data ++ message] else j.logs }

/-- The record `start_import_job` creates in `project_service`
(lines 384-395). -/
def startCloneJobRecord : JobRec :=
  { status := .running
    message := "Starting import...".data
    percent := 0
    logs := []
    error := none }

/-- `job['logs'].append(...)`. -/
def appendLog (j : JobRec) (line : Str) : JobRec :=
  { j with logs := j.logs ++ [line] }

/-- Observable record states while `lines` are appended one by one. -/
def logStates (j : JobRec) (lines : List Str) : List JobRec :=
  (List.range lines.length).map
    (fun k => { j with logs := j.logs ++ lines.take (k + 1) })

/-- The record `start_workflow_job` creates (lines 548-559). -/
def startWorkflowJobRecord : JobRec :=
  { status := .running
    message := "Queued...".data
    percent := 0
    logs := []
    error := none }

/-- Outcome of the opportunistic git commit-and-push block
(lines 486-531): the log lines it emitted, and the exception message when
it raised. -/
inductive GitSyncOutcome where
  | ok (lines : List Str)
  | failed (lines : List Str) (err : Str)
deriving DecidableEq, Repr

/-- Log lines the git-sync block appends: `"Starting Git Sync..."` always
comes first, and a raise is downgraded to a `Git Sync Warning:` line
(lines 529-531). -/
def gitSyncLogLines : GitSyncOutcome → List Str
  | .ok lines => "Starting Git Sync...".data :: lines
  | .failed lines err =>
    "Starting Git Sync...".data :: (lines ++ ["Git Sync Warning: ".data ++ err])

/-- Final job record after the external process exits in
`_run_workflow_job` (lines 480-540): on exit code 0 the job completes and
a git-sync failure only logs a warning; otherwise the job fails with the
exit code. -/
def workflowFinalize (j : JobRec) (returnCode : ℤ) (sync : GitSyncOutcome) :
    JobRec :=
  if returnCode = 0 then
    { j with
      percent := 100
      status := JobStatus.completed
      message := "Workflow completed successfully".data
      logs := j.logs ++ ["Job completed successfully.".data] ++ gitSyncLogLines sync }
  else
    { j with
      status := JobStatus.failed
      error := some ("Process exited with code ".data ++ intToStr returnCode)
      logs := j.logs ++ ["Job failed with exit code ".data ++ intToStr returnCode] }

/-- Observable states of the same epilogue, one per record write: on the
success path `percent := 100` (line 481) and the message are written
before the git sync runs and well before `status := 'completed'`
(line 534). -/
def workflowEpilogueStates (j : JobRec) (returnCode : ℤ)
    (sync : GitSyncOutcome) : List JobRec :=
  if returnCode = 0 then
    let s1 := { j with percent := (100 : ℚ) }
    let s2 := { s1 with message := "Processing outputs...".data }
    let s3 := appendLog s2 "Job completed successfully.".data
    let syncStates := logStates s3 (gitSyncLogLines sync)
    let s4 := { s3 with logs := s3.logs ++ gitSyncLogLines sync }
    let s5 := { s4 with status := JobStatus.completed }
    [s1, s2, s3] ++ syncStates
      ++ [s5, { s5 with message := "Workflow completed successfully".data }]
  else
    let f1 := { j with status := JobStatus.failed }
    let f2 := { f1 with
      error := some ("Process exited with code ".data ++ intToStr returnCode) }
    [f1, f2, appendLog f2 ("Job failed with exit code ".data ++ intToStr returnCode)]

/-- Observable polling states of one workflow job: the created record,
one state per streamed log line (lines 423-476 only append to the log),
then the epilogue states. -/
def runWorkflowStates (bodyLogs : List Str) (returnCode : ℤ)
    (sync : GitSyncOutcome) : List JobRec :=
  let j := startWorkflowJobRecord
  let last := { j with logs := j.logs ++ bodyLogs }
  j :: logStates j bodyLogs ++ workflowEpilogueStates last returnCode sync

end ProjectService

namespace DiffService

/-- A filesystem path as `pathlib` compares them: an absolute flag plus
components. -/
structure PurePath where
  absolute : Bool
  comps : List Str
deriving DecidableEq, Repr

/-- The `/` operator of `pathlib`: an absolute right operand replaces the left. -/
def joinPath (root sub : PurePath) : PurePath :=
  if sub.absolute then sub else { root with comps := root.comps ++ sub.comps }

/-- `root in p.parents`: `root` is a proper ancestor of `p`. -/
def isStrictAncestor (root p : PurePath) : Bool :=
  root.absolute == p.absolute && root.comps != p.comps
    && root.comps.isPrefixOf p.comps

/-- One `diff_jobs[job_id]` record (the fields the claims observe). -/
structure JobRec where
  status : JobStatus
  message : Str
  percent : ℚ
  logs : List Str
  error : Option Str
  absOutputPath : Option PurePath
deriving DecidableEq, Repr

/-- The record `start_diff_job` creates (lines 372-383). -/
def startDiffJobRecord : JobRec :=
  { status := .running
    message := "Initializing...".data
    percent := 0
    logs := []
    error := none
    absOutputPath := none }

/-- The global `diff_jobs` dict together with the set of job output
directories existing on disk. -/
structure StoreState where
  jobs : List (Str × JobRec)
  dirs : List PurePath
deriving DecidableEq, Repr

/-- `_cleanup_job` (lines 105-123): a `running` job is not deleted, it is
flipped to `failed` with a cancellation message and its directory kept;
otherwise the output directory is removed (when it exists) and the record
deleted. -/
def cleanupJob (st : StoreState) (jobId : Str) : StoreState :=
  match dictGet jobId st.jobs with
  | none => st
  | some job =>
    if job.status = .running then
      { st with
        jobs := dictSet jobId
          { job with status := .failed, error := some "Job cancelled by user".data }
          st.jobs }
    else
      let dirs :=
        match job.absOutputPath with
        | some d => if st.dirs.contains d then st.dirs.erase d else st.dirs
        | none => st.dirs
      { jobs := dictDel jobId st.jobs, dirs := dirs }

/-- `delete_job` (lines 125-127). -/
def deleteJob (st : StoreState) (jobId : Str) : StoreState :=
  cleanupJob st jobId

/-- `get_job_status` (lines 394-395). -/
def getJobStatus (st : StoreState) (jobId : Str) : Option JobRec :=
  dictGet jobId st.jobs

/-- The manifest JSON object assembled by `_run_diff_generation`:
`sheets`/`layers` are optional keys (`none` models an absent key). -/
structure Manifest where
  jobId : Str
  commit1 : Str
  commit2 : Str
  schematic : Bool
  pcb : Bool
  sheets : Option (List Str)
  layers : Option (List Str)
deriving DecidableEq, Repr

/-- `get_manifest` (lines 397-406); `readManifest` models
`path.exists()` + `json.load` (`none` when the file is missing). -/
def getManifest (st : StoreState) (readManifest : PurePath → Option Manifest)
    (jobId : Str) : Option Manifest :=
  match dictGet jobId st.jobs with
  | none => none
  | some job =>
    if job.status ≠ .completed then none
    else
      match job.absOutputPath with
      | none => none
      | some root => readManifest (joinPath root ⟨false, ["manifest.json".data]⟩)

/-- `get_asset_path` (lines 408-423); `resolve` models `Path.resolve`
(symlinks and `..` folded away, `none` when it raises) and `fileExists`
models `Path.exists`. -/
def getAssetPath (st : StoreState) (resolve : PurePath → Option PurePath)
    (fileExists : PurePath → Bool) (jobId : Str) (asset : PurePath) :
    Option PurePath :=
  match dictGet jobId st.jobs with
  | none => none
  | some job =>
    if job.status ≠ .completed then none
    else
      match job.absOutputPath with
      | none => none
      | some root =>
        let fullPath := joinPath root asset
        match resolve fullPath with
        | none => none
        | some rp =>
          if isStrictAncestor root rp then
            if fileExists fullPath then some fullPath else none
          else none

/-- Fallback layer list of `_get_pcb_layers` (line 175). -/
def standardLayers : List Str :=
  ["F.Cu".data, "B.Cu".data, "F.SilkS".data, "B.SilkS".data,
   "F.Mask".data, "B.Mask".data, "Edge.Cuts".data]

/-- `_get_pcb_layers` (lines 145-175) with the bounded textual scan at the
boundary: `parsed` is the list of quoted layer names the regex scan finds
in the layers block of the file (`none` when no block matches or reading
raises).  Missing file gives `[]`; empty or failed parse gives the
fallback list. -/
def getPcbLayers (fileExistsB : Bool) (parsed : Option (List Str)) :
    List Str :=
  if !fileExistsB then []
  else
    match parsed with
    | some names => if names ≠ [] then names else standardLayers
    | none => standardLayers

/-- Outcome of the schematic export attempt of one commit, as
`_run_diff_generation` observes it. -/
structure SchExport where
  fileFound : Bool
  exitCode : ℤ
  svgNames : List Str
deriving DecidableEq, Repr

/-- Outcome of the board export attempt of one commit, as
`_run_diff_generation` observes it. -/
structure PcbExport where
  fileFound : Bool
  stem : Str
  parsedLayers : Option (List Str)
  exitCode : ℤ
  svgNames : List Str
deriving DecidableEq, Repr

/-- `layer_part` computation (lines 314-317): strip the `{stem}-` export
prefix the CAD tool may add. -/
def layerPartOf (stem leaf : Str) : Str :=
  if pyStartsWith leaf (stem ++ "-".data) then leaf.drop (stem.length + 1)
  else leaf

/-- The matching loop (lines 320-324): first declared layer whose
dot-to-underscore form equals the file name with `.svg` removed. -/
def matchLayer (allLayers : List Str) (stem : Str) (leaf : Str) :
    Option Str :=
  allLayers.find?
    (fun l => pyReplace l ".".data "_".data
      == pyReplace (layerPartOf stem leaf) ".svg".data [])

/-- One iteration of the per-commit export loop (lines 255-345),
restricted to its effect on the manifest dict: only the `commit == commit1`
iteration writes `sheets`/`layers`, and only on a zero exit code. -/
def commitStep (isCommit1 : Bool) (sch : SchExport) (pcb : PcbExport)
    (m : Manifest) : Manifest :=
  let m1 :=
    if sch.fileFound ∧ sch.exitCode = 0 ∧ isCommit1 then
      { m with schematic := true, sheets := some (pySorted sch.svgNames) }
    else m
  if pcb.fileFound ∧ pcb.exitCode = 0 ∧ isCommit1 then
    let allLayers := getPcbLayers true pcb.parsedLayers
    let foundLayers := pcb.svgNames.filterMap (matchLayer allLayers pcb.stem)
    { m1 with layers := some (pySorted foundLayers.dedup) }
  else m1

/-- The manifest dict as initialised at lines 227-233. -/
def initManifest (jobId c1 c2 : Str) : Manifest :=
  { jobId := jobId, commit1 := c1, commit2 := c2
    schematic := true, pcb := true, sheets := none, layers := none }

/-- The manifest persisted by `_run_diff_generation` on the success path:
the commit-1 iteration runs first, then the commit-2 iteration. -/
def buildManifest (jobId c1 c2 : Str) (sch1 : SchExport) (pcb1 : PcbExport)
    (sch2 : SchExport) (pcb2 : PcbExport) : Manifest :=
  commitStep false sch2 pcb2 (commitStep true sch1 pcb1 (initManifest jobId c1 c2))

/-- `job['logs'].append(...)`. -/
def appendLog (j : JobRec) (line : Str) : JobRec :=
  { j with logs := j.logs ++ [line] }

/-- Observable record states while `lines` are appended one by one. -/
def logStates (j : JobRec) (lines : List Str) : List JobRec :=
  (List.range lines.length).map
    (fun k => { j with logs := j.logs ++ lines.take (k + 1) })

/-- Observable states of the success epilogue (lines 355-358): status is
written first, then message, then percent, then a final log line. -/
def successFinalizeStates (j : JobRec) : List JobRec :=
  let s1 := { j with status := JobStatus.completed }
  let s2 := { s1 with message := "Ready".data }
  let s3 := { s2 with percent := (100 : ℚ) }
  [s1, s2, s3, appendLog s3 "Diff generation complete.".data]

/-- Observable states of the failure handler (lines 362-364): status is
written first, then the error, then a log line. -/
def failureFinalizeStates (j : JobRec) (e : Str) : List JobRec :=
  let s1 := { j with status := JobStatus.failed }
  let s2 := { s1 with error := some e }
  [s1, s2, appendLog s2 ("Critical Error: ".data ++ e)]

/-- Observable polling states of one diff job: the created record, a state
per body log append, then the success or failure epilogue.  `outcome` is
`none` for the success path and `some e` when the body raises `e`. -/
def runStates (j : JobRec) (bodyLogs : List Str) (outcome : Option Str) :
    List JobRec :=
  let last := { j with logs := j.logs ++ bodyLogs }
  j :: logStates j bodyLogs ++
    (match outcome with
     | none => successFinalizeStates last
     | some e => failureFinalizeStates last e)

end DiffService

/-- External version-control effect visible to claims: whether a clone was
attempted. -/
inductive GitAction where
  | clone (url : Str)
deriving DecidableEq, Repr

namespace ProjectImportService

/-- `project_import_service.DiscoveredProject` (dataclass, lines 18-25). -/
structure DiscoveredProject where
  name : Str
  relative_path : Str
  full_path : Str
  has_schematic : Bool
  has_pcb : Bool
deriving DecidableEq, Repr

/-- The `job['result']` dict written by `_run_analyze_job`
(lines 242-256). -/
structure AnalyzeResultRec where
  repo_name : Str
  repo_url : Str
  import_type : Str
  projects : List DiscoveredProject
deriving DecidableEq, Repr

/-- Mutable fields of a `project_import_service.jobs[job_id]` record that
the claims observe. -/
structure JobRec where
  status : JobStatus
  message : Str
  percent : ℚ
  logs : List Str
  error : Option Str
  result : Option AnalyzeResultRec
  project_ids : List Str
deriving DecidableEq, Repr

/-- `project_import_service.CloneProgress.update` (lines 59-68): clamps at
99 and stores `int(percent)`; `percent = 0` when `max_count` is falsy or
non-positive; non-empty messages are appended to the log with a `[GIT] `
prefix. -/
def cloneProgressUpdate (j : JobRec) (curCount : ℚ) (maxCount : Option ℚ)
    (message : Str) : JobRec :=
  let percent : ℚ :=
    match maxCount with
    | some m => if m ≠ 0 ∧ 0 < m then min (curCount / m * 100) 99 else 0
    | none => 0
  { j with
    percent := (pyInt percent : ℚ)
    message := if message ≠ [] then message
               else "Cloning... ".data ++ intToStr (pyInt percent) ++ "%".data
    logs := if message ≠ [] then j.logs ++ ["[GIT] ".data ++ message] else j.logs }

/-- `has_ssh_key` (lines 42-49): a default key file exists in `~/.ssh`. -/
def has_ssh_key (sshDirFiles : List Str) : Bool :=
  ["id_ed25519".data, "id_rsa".data].any (fun kt => sshDirFiles.contains kt)

/-- The HTTPS guard condition shared by `_run_analyze_job` (line 204) and
`_run_import_job` (line 300): `GITHUB_TOKEN` is an override only when
truthy. -/
def httpsGuardTriggered (repoUrl : Str) (sshDirFiles : List Str)
    (githubToken : Option Str) : Bool :=
  pyStartsWith repoUrl "https://".data && has_ssh_key sshDirFiles
    && !strTruthy githubToken

/-- The error message of the guard (lines 205 and 301). -/
def httpsGuardMsg : Str :=
  "HTTPS URL provided. Please use the SSH URL (git@github.com:...) for private repositories when an SSH key is configured.".data

/-- `repo_url.rstrip('/').split('/')[-1].replace('.git', '')`
(lines 211 and 308). -/
def repoNameOf (repoUrl : Str) : Str :=
  pyReplace ((pySplitChar '/' (pyRstrip repoUrl '/')).getLastD []) ".git".data []

/-- `is_excluded_directory` (lines 71-78). -/
def is_excluded_directory (dirName : Str) : Bool :=
  ["archive".data, "archived".data, "old".data, "backup".data, "backups".data,
   "obsolete".data, "deprecated".data, "trash".data, ".git".data,
   "__pycache__".data, "node_modules".data, ".venv".data, "venv".data,
   ".env".data].contains (pyLower dirName)
  || pyStartsWith dirName ".".data

/-- `Path(fpath).parent.as_posix()` for a repo-relative file path. -/
def pathParent (fpath : Str) : Str :=
  let parts := pySplitChar '/' fpath
  if parts.length ≤ 1 then ".".data
  else List.intercalate "/".data parts.dropLast

/-- `Path(fpath).name`. -/
def pathName (fpath : Str) : Str :=
  (pySplitChar '/' fpath).getLastD []

/-- `Path(name).stem`: the name with its final extension removed (a
leading dot alone does not start an extension). -/
def stemOf (name : Str) : Str :=
  match pySplitChar '.' name with
  | [] => name
  | [_] => name
  | [[], _] => name
  | parts => List.intercalate ".".data parts.dropLast

/-- One insertion into the `dir_map` dict of
`discover_projects_from_repo` (lines 94-103): append the filename to the
list of its directory, creating the entry on first sight. -/
def insertAppend (m : List (Str × List Str)) (d n : Str) :
    List (Str × List Str) :=
  match m with
  | [] => [(d, [n])]
  | (k, vs) :: rest =>
    if k = d then (k, vs ++ [n]) :: rest else (k, vs) :: insertAppend rest d n

/-- The `dir_map` grouping of lines 94-103: directory → filenames, in
first-occurrence order. -/
def dirMap (files : List Str) : List (Str × List Str) :=
  files.foldl (fun m f => insertAppend m (pathParent f) (pathName f)) []

/-- The exclusion test of lines 107-114: any component of the directory
path is excluded; the root `"."` is never tested. -/
def shouldExcludeDir (dirPath : Str) : Bool :=
  dirPath != ".".data && (pySplitChar '/' dirPath).any is_excluded_directory

/-- Depth component of the sort key (line 132). -/
def sortDepth (p : DiscoveredProject) : ℕ :=
  if p.relative_path = ".".data then 0
  else (pySplitChar '/' p.relative_path).length

/-- The sort order of line 132: by depth, then case-folded name. -/
def sortKeyLe (p q : DiscoveredProject) : Bool :=
  decide (sortDepth p < sortDepth q)
    || (decide (sortDepth p = sortDepth q)
        && pyStrLe (pyLower p.name) (pyLower q.name))

/-- `discover_projects_from_repo` (lines 81-134) applied to the
`ls_tree -r HEAD --name-only` file list: group files by directory, emit
one candidate per `.kicad_pro` file in a non-excluded directory, then
sort shallow-first. -/
def discover_projects_from_repo (files : List Str) :
    List DiscoveredProject :=
  let dm := dirMap files
  let projs := dm.flatMap (fun e =>
    if shouldExcludeDir e.1 then []
    else
      (e.2.filter (fun f => pyEndsWith f ".kicad_pro".data)).map (fun pro =>
        { name := stemOf pro
          relative_path := e.1
          full_path := []
          has_schematic := e.2.any (fun f => pyEndsWith f ".kicad_sch".data)
          has_pcb := e.2.any (fun f => pyEndsWith f ".kicad_pcb".data) }))
  pySortBy sortKeyLe projs

/-- The classification of lines 235-237: `type1` iff the discovered list
is a single candidate whose path is the tree root. -/
def importTypeOf (projects : List DiscoveredProject) : Str :=
  match projects with
  | [p] => if p.relative_path = ".".data then "type1".data else "type2".data
  | _ => "type2".data

/-- `job['logs'].append(...)`. -/
def appendLog (j : JobRec) (line : Str) : JobRec :=
  { j with logs := j.logs ++ [line] }

/-- The record `start_analyze_job` creates (lines 510-521). -/
def startAnalyzeJobRecord (repoUrl : Str) : JobRec :=
  { status := .running
    message := "Starting analysis...".data
    percent := 0
    logs := ["Starting analysis of ".data ++ repoUrl]
    error := none
    result := none
    project_ids := [] }

/-- The record `start_import_job` creates (lines 480-493). -/
def startImportJobRecord (repoUrl : Str) : JobRec :=
  { status := .running
    message := "Starting import...".data
    percent := 0
    logs := ["Starting import of ".data ++ repoUrl]
    error := none
    result := none
    project_ids := [] }

/-- External collaborators of `_run_analyze_job`: the `~/.ssh` directory
contents, the `GITHUB_TOKEN` variable, and the clone outcome (the
recursive repo file list on success). -/
structure AnalyzeEnv where
  sshDirFiles : List Str
  githubToken : Option Str
  cloneResult : Except Str (List Str)

/-- `_run_analyze_job` (lines 194-269), returning the final job record
and the git actions performed.  Progress-callback mutations during the
clone are modelled separately by `cloneProgressUpdate`. -/
def run_analyze_job (repoUrl : Str) (env : AnalyzeEnv) :
    JobRec × List GitAction :=
  let j := startAnalyzeJobRecord repoUrl
  let j := appendLog j ("Analyzing ".data ++ repoUrl ++ "...".data)
  if httpsGuardTriggered repoUrl env.sshDirFiles env.githubToken then
    let j := appendLog j ("Error: ".data ++ httpsGuardMsg)
    ({ j with status := .failed, error := some httpsGuardMsg }, [])
  else
    let repoName := repoNameOf repoUrl
    let j := appendLog j "Cloning repository (blobless/no-checkout)...".data
    match env.cloneResult with
    | .error e =>
      ({ j with
          status := .failed
          error := some e
          logs := j.logs ++ ["Error: ".data ++ e] }, [.clone repoUrl])
    | .ok files =>
      let j := appendLog j "Discovering KiCAD projects from tree...".data
      let projects := discover_projects_from_repo files
      let importType := importTypeOf projects
      let j := appendLog j
        ("Found ".data ++ natToStr projects.length
          ++ " project(s). Type: ".data ++ importType)
      ({ j with
          result := some
            { repo_name := repoName
              repo_url := repoUrl
              import_type := importType
              projects := projects }
          status := .completed
          percent := 100
          message := "Analysis complete.".data }, [.clone repoUrl])

/-- One `.project_registry.json` entry as `register_project`
(project_service lines 59-83) and `_run_import_job` write it; timestamp
fields are omitted. -/
structure RegistryEntry where
  name : Str
  path : Str
  repo_url : Str
  sub_path : Option Str
  parent_repo : Option Str
  import_type : Option Str
  parent_repo_path : Option Str
  relative_path : Option Str
deriving DecidableEq, Repr

/-- `register_project` (project_service lines 59-83) as a registry
write. -/
def registerProject (registry : List (Str × RegistryEntry))
    (projectId name path repoUrl : Str) (subPath parentRepo : Option Str) :
    List (Str × RegistryEntry) :=
  dictSet projectId
    { name := name, path := path, repo_url := repoUrl, sub_path := subPath
      parent_repo := parentRepo, import_type := none
      parent_repo_path := none, relative_path := none } registry

/-- `generate_project_id` (lines 278-288): keep the natural id when free,
else append the first free numeric suffix.  The `while` loop is bounded
by the registry size plus one, where a free suffix must exist. -/
def generate_project_id (baseId : Str)
    (registry : List (Str × RegistryEntry)) : Str :=
  if (dictGet baseId registry).isNone then baseId
  else
    let candidates := (List.range (registry.length + 1)).map
      (fun k => baseId ++ "-".data ++ natToStr (k + 1))
    (candidates.find? (fun c => (dictGet c registry).isNone)).getD
      (baseId ++ "-".data ++ natToStr (registry.length + 1))

/-- External collaborators of `_run_import_job`. -/
structure ImportEnv where
  sshDirFiles : List Str
  githubToken : Option Str
  projectsRoot : Str
  registry : List (Str × RegistryEntry)
  targetExists : Bool
  rmtreeResult : Except Str Unit
  cloneResult : Except Str Unit
  proFilesAt : Str → List Str

/-- `safe_name` (line 421). -/
def safeNameOf (relPath : Str) : Str :=
  pyReplace (pyReplace relPath "/".data "-".data) " ".data "_".data

/-- The type-2 registration loop body (lines 419-453), folding over the
selected paths while re-reading the registry each iteration. -/
def registerType2 (env : ImportEnv) (repoName repoUrl targetPath : Str)
    (acc : List (Str × RegistryEntry) × List Str × JobRec)
    (relPath : Str) : List (Str × RegistryEntry) × List Str × JobRec :=
  let (registry, importedIds, j) := acc
  let baseId := repoName ++ "-".data ++ safeNameOf relPath
  let projectId := generate_project_id baseId registry
  let fullProjectPath := targetPath ++ "/".data ++ relPath
  let proFiles := env.proFilesAt fullProjectPath
  let boardName :=
    match proFiles with
    | p :: _ => stemOf p
    | [] => pathName relPath
  let registry := registerProject registry projectId boardName fullProjectPath
    repoUrl (some relPath) (some repoName)
  let registry :=
    match dictGet projectId registry with
    | some e =>
      dictSet projectId
        { e with import_type := some "type2_subproject".data
                 parent_repo_path := some targetPath
                 relative_path := some relPath } registry
    | none => registry
  (registry, importedIds ++ [projectId],
    appendLog j ("Registered Type-2 subproject: ".data ++ projectId))

/-- `_run_import_job` (lines 291-471), returning the final job record,
the git actions performed, and the final registry.  Filesystem cleanup of
a failed clone and progress callbacks are outside the record and
modelled elsewhere. -/
def run_import_job (repoUrl importType : Str)
    (selectedPaths : Option (List Str)) (env : ImportEnv) :
    JobRec × List GitAction × List (Str × RegistryEntry) :=
  let j := startImportJobRecord repoUrl
  if httpsGuardTriggered repoUrl env.sshDirFiles env.githubToken then
    let j := appendLog j ("Error: ".data ++ httpsGuardMsg)
    ({ j with status := .failed, error := some httpsGuardMsg }, [], env.registry)
  else
    let repoName := repoNameOf repoUrl
    let basePath := env.projectsRoot ++ "/".data ++
      (if importType = "type1".data then "type1".data else "type2".data)
    let targetPath := basePath ++ "/".data ++ repoName
    let strandedCheck :
        Option (JobRec × List GitAction × List (Str × RegistryEntry)) :=
      if env.targetExists then
        if importType = "type2".data then
          let existingSub := env.registry.filter (fun e =>
            e.2.parent_repo = some repoName
              ∧ e.2.import_type = some "type2_subproject".data)
          if existingSub ≠ [] then
            some ({ (appendLog j
                ("Error: ".data ++ targetPath ++ " already exists with ".data
                  ++ natToStr existingSub.length
                  ++ " registered subprojects".data)) with
              status := .failed
              error := some ("Repository '".data ++ repoName
                ++ "' already exists with registered projects".data) },
              [], env.registry)
          else
            match env.rmtreeResult with
            | .ok _ => none
            | .error e =>
              some ({ (appendLog j ("Removing stranded repo: ".data ++ targetPath)) with
                status := .failed
                error := some ("Failed to remove stranded repo: ".data ++ e) },
                [], env.registry)
        else
          let existing := env.registry.find? (fun e =>
            e.2.import_type = some "type1".data ∧ e.2.path = targetPath)
          if existing.isSome then
            some ({ (appendLog j ("Error: ".data ++ targetPath ++ " already exists".data)) with
              status := .failed
              error := some ("Repository '".data ++ repoName
                ++ "' already exists".data) },
              [], env.registry)
          else
            match env.rmtreeResult with
            | .ok _ => none
            | .error e =>
              some ({ (appendLog j ("Removing stranded repo: ".data ++ targetPath)) with
                status := .failed
                error := some ("Failed to remove stranded repo: ".data ++ e) },
                [], env.registry)
      else none
    match strandedCheck with
    | some out => out
    | none =>
      let j :=
        if env.targetExists then
          appendLog j ("Removing stranded repo: ".data ++ targetPath)
        else j
      let j := appendLog j ("Cloning ".data ++ repoUrl ++ "...".data)
      match env.cloneResult with
      | .error e =>
        ({ j with
            status := .failed
            error := some e
            logs := j.logs ++ ["Error: ".data ++ e] },
          [.clone repoUrl], env.registry)
      | .ok _ =>
        let j := appendLog j "Clone complete. Registering projects...".data
        if importType = "type1".data then
          let projectId := generate_project_id repoName env.registry
          let registry := registerProject env.registry projectId repoName
            targetPath repoUrl none none
          let registry :=
            match dictGet projectId registry with
            | some e =>
              dictSet projectId { e with import_type := some "type1".data } registry
            | none => registry
          let j := appendLog j ("Registered Type-1 project: ".data ++ projectId)
          ({ j with
              project_ids := [projectId]
              status := .completed
              percent := 100
              message := "Imported 1 project(s)".data
              logs := j.logs ++ ["Import completed successfully.".data] },
            [.clone repoUrl], registry)
        else
          match selectedPaths with
          | none =>
            ({ j with status := .failed
                      error := some "No projects selected for Type-2 import".data },
              [.clone repoUrl], env.registry)
          | some [] =>
            ({ j with status := .failed
                      error := some "No projects selected for Type-2 import".data },
              [.clone repoUrl], env.registry)
          | some paths =>
            let out :=
              paths.foldl (registerType2 env repoName repoUrl targetPath)
                (env.registry, [], j)
            ({ out.2.2 with
                project_ids := out.2.1
                status := .completed
                percent := 100
                message := "Imported ".data ++ natToStr out.2.1.length
                  ++ " project(s)".data
                logs := out.2.2.logs ++ ["Import completed successfully.".data] },
              [.clone repoUrl], out.1)

/-- `get_job_status` (lines 533-541): the import store first, then the
project_service store. -/
def get_job_status (importJobs : List (Str × JobRec))
    (psJobs : List (Str × ProjectService.JobRec)) (jobId : Str) :
    Option (JobRec ⊕ ProjectService.JobRec) :=
  match dictGet jobId importJobs with
  | some j => some (.inl j)
  | none =>
    match dictGet jobId psJobs with
    | some j => some (.inr j)
    | none => none

end ProjectImportService

/-! ## Dictionary lemmas -/

theorem dictGet_dictSet [DecidableEq κ] (k k' : κ) (v : α)
    (m : List (κ × α)) :
    dictGet k (dictSet k' v m) = if k' = k then some v else dictGet k m := by
  induction m with
  | nil => by_cases h : k' = k <;> simp [dictGet, dictSet, h]
  | cons hd tl ih =>
    obtain ⟨k₀, v₀⟩ := hd
    by_cases h0 : k₀ = k'
    · subst h0
      by_cases h : k₀ = k <;> simp [dictGet, dictSet, h]
    · by_cases h : k₀ = k
      · subst h
        have : ¬ k' = k₀ := fun he => h0 he.symm
        simp [dictGet, dictSet, h0, this]
      · simp [dictGet, dictSet, h0, h, ih]

theorem dictGet_dictDel [DecidableEq κ] (k k' : κ) (m : List (κ × α)) :
    dictGet k (dictDel k' m) = if k' = k then none else dictGet k m := by
  induction m with
  | nil => by_cases h : k' = k <;> simp [dictGet, dictDel, h]
  | cons hd tl ih =>
    obtain ⟨k₀, v₀⟩ := hd
    by_cases h0 : k₀ = k'
    · subst h0
      by_cases h : k₀ = k
      · subst h
        simp [dictDel, ih]
      · simp [dictGet, dictDel, h, ih]
    · by_cases h : k₀ = k
      · subst h
        have : ¬ k' = k₀ := fun he => h0 he.symm
        simp [dictGet, dictDel, h0, this]
      · simp [dictGet, dictDel, h0, h, ih]

/-! ## Claim theorems -/

/-- C3: a delete request against a `running` diff job does not remove the
job record or its workspace directory; it flips the status to `failed`
with the `"Job cancelled by user"` error and leaves everything else of
the record, and all directories on disk, unchanged. -/
theorem C3_delete_running_job_preserved (st : DiffService.StoreState)
    (jobId : Str) (job : DiffService.JobRec)
    (hget : dictGet jobId st.jobs = some job)
    (hrun : job.status = JobStatus.running) :
    DiffService.getJobStatus (DiffService.deleteJob st jobId) jobId =
      some { job with status := JobStatus.failed
                      error := some "Job cancelled by user".data }
    ∧ (DiffService.deleteJob st jobId).dirs = st.dirs := by
  unfold DiffService.deleteJob DiffService.cleanupJob DiffService.getJobStatus
  rw [hget]
  simp [hrun, dictGet_dictSet]

/-- Witness for C3 at a concrete one-job store. -/
theorem C3_witness :
    DiffService.getJobStatus
      (DiffService.deleteJob
        ⟨[("j1".data, DiffService.startDiffJobRecord)],
          [⟨true, ["tmp".data]⟩]⟩ "j1".data) "j1".data =
      some { DiffService.startDiffJobRecord with
              status := JobStatus.failed
              error := some "Job cancelled by user".data }
    ∧ (DiffService.deleteJob
        ⟨[("j1".data, DiffService.startDiffJobRecord)],
          [⟨true, ["tmp".data]⟩]⟩ "j1".data).dirs =
      (⟨[("j1".data, DiffService.startDiffJobRecord)],
          [⟨true, ["tmp".data]⟩]⟩ : DiffService.StoreState).dirs :=
  C3_delete_running_job_preserved _ _ DiffService.startDiffJobRecord
    (by decide) (by decide)

/-- C10: `get_manifest` and `get_asset_path` return `None` whenever the
job id is absent from the diff-job store or the job status is not
`completed`. -/
theorem C10_no_serving_before_completion (st : DiffService.StoreState)
    (readManifest : DiffService.PurePath → Option DiffService.Manifest)
    (resolve : DiffService.PurePath → Option DiffService.PurePath)
    (fileExists : DiffService.PurePath → Bool) (jobId : Str)
    (asset : DiffService.PurePath)
    (h : dictGet jobId st.jobs = none ∨
      ∃ j, dictGet jobId st.jobs = some j ∧ j.status ≠ JobStatus.completed) :
    DiffService.getManifest st readManifest jobId = none
    ∧ DiffService.getAssetPath st resolve fileExists jobId asset = none := by
  unfold DiffService.getManifest DiffService.getAssetPath
  rcases h with h | ⟨j, hj, hs⟩
  · rw [h]
    exact ⟨rfl, rfl⟩
  · rw [hj]
    simp [hs]

/-- Witness for C10: a running job and an unknown id both yield `None`. -/
theorem C10_witness :
    DiffService.getManifest
      ⟨[("j1".data, DiffService.startDiffJobRecord)], []⟩ (fun _ => none)
      "j1".data = none
    ∧ DiffService.getAssetPath
      ⟨[("j1".data, DiffService.startDiffJobRecord)], []⟩ (fun p => some p)
      (fun _ => true) "j1".data ⟨false, []⟩ = none :=
  C10_no_serving_before_completion _ _ _ _ _ _
    (Or.inr ⟨DiffService.startDiffJobRecord, by decide, by decide⟩)

/-- C8: `get_asset_path` returns a path only when the resolved form of
that path lies strictly inside the workspace root of the job (`resolve` is
arbitrary, so `..` components and symlinks are covered); a resolution
landing outside the root yields `None`. -/
theorem C8_traversal_safety (st : DiffService.StoreState)
    (resolve : DiffService.PurePath → Option DiffService.PurePath)
    (fileExists : DiffService.PurePath → Bool) (jobId : Str)
    (asset : DiffService.PurePath) :
    (∀ p, DiffService.getAssetPath st resolve fileExists jobId asset = some p →
      ∃ job root rp, dictGet jobId st.jobs = some job
        ∧ job.status = JobStatus.completed
        ∧ job.absOutputPath = some root
        ∧ p = DiffService.joinPath root asset
        ∧ resolve p = some rp
        ∧ DiffService.isStrictAncestor root rp = true
        ∧ fileExists p = true)
    ∧ (∀ job root rp, dictGet jobId st.jobs = some job →
        job.absOutputPath = some root →
        resolve (DiffService.joinPath root asset) = some rp →
        DiffService.isStrictAncestor root rp = false →
        DiffService.getAssetPath st resolve fileExists jobId asset = none) := by
  constructor
  · intro p hp
    unfold DiffService.getAssetPath at hp
    split at hp
    · simp at hp
    · rename_i job hjob
      split at hp
      · simp at hp
      · rename_i hs
        push_neg at hs
        split at hp
        · simp at hp
        · rename_i root hroot
          dsimp only at hp
          split at hp
          · simp at hp
          · rename_i rp hres
            split at hp
            · rename_i hanc
              split at hp
              · rename_i hex
                have hpe : DiffService.joinPath root asset = p :=
                  Option.some_injective _ hp
                subst hpe
                exact ⟨job, root, rp, hjob, hs, hroot, rfl, hres, hanc, hex⟩
              · simp at hp
            · simp at hp
  · intro job root rp hjob hroot hres hanc
    unfold DiffService.getAssetPath
    rw [hjob]
    dsimp only
    by_cases hs : job.status ≠ JobStatus.completed
    · rw [if_pos hs]
    · rw [if_neg hs, hroot]
      dsimp only
      rw [hres]
      dsimp only
      simp [hanc]

/-- Witness for C8: with identity resolution an asset inside the root is
served, so the soundness direction produces its certificate. -/
theorem C8_witness :
    ∃ job root rp,
      dictGet "j1".data
        [("j1".data,
          { DiffService.startDiffJobRecord with
              status := JobStatus.completed
              absOutputPath := some ⟨true, ["tmp".data, "d".data]⟩ })]
        = some job
      ∧ job.status = JobStatus.completed
      ∧ job.absOutputPath = some root
      ∧ (⟨true, ["tmp".data, "d".data, "a.svg".data]⟩ : DiffService.PurePath)
          = DiffService.joinPath root ⟨false, ["a.svg".data]⟩
      ∧ some (⟨true, ["tmp".data, "d".data, "a.svg".data]⟩ : DiffService.PurePath)
          = some rp
      ∧ DiffService.isStrictAncestor root rp = true
      ∧ true = true :=
  (C8_traversal_safety
    ⟨[("j1".data,
      { DiffService.startDiffJobRecord with
          status := JobStatus.completed
          absOutputPath := some ⟨true, ["tmp".data, "d".data]⟩ })], []⟩
    (fun p => some p) (fun _ => true) "j1".data ⟨false, ["a.svg".data]⟩).1
    ⟨true, ["tmp".data, "d".data, "a.svg".data]⟩ (by decide)

/-- C6: when the external workflow process exits 0, a git-sync failure
is logged as a `Git Sync Warning:` line and does not change the outcome:
the job completes and the error field is untouched. -/
theorem C6_push_failure_downgraded (j : ProjectService.JobRec) (rc : ℤ)
    (sync : ProjectService.GitSyncOutcome) (lines : List Str) (e : Str)
    (hrc : rc = 0) (hsync : sync = .failed lines e) :
    (ProjectService.workflowFinalize j rc sync).status = JobStatus.completed
    ∧ (ProjectService.workflowFinalize j rc sync).error = j.error
    ∧ ("Git Sync Warning: ".data ++ e) ∈
        (ProjectService.workflowFinalize j rc sync).logs := by
  subst hrc hsync
  refine ⟨by simp [ProjectService.workflowFinalize], ?_, ?_⟩
  · simp [ProjectService.workflowFinalize]
  · simp [ProjectService.workflowFinalize, ProjectService.gitSyncLogLines]

/-- Witness for C6 at the freshly created workflow record. -/
theorem C6_witness :
    (ProjectService.workflowFinalize ProjectService.startWorkflowJobRecord 0
      (.failed [] "push rejected".data)).status = JobStatus.completed
    ∧ (ProjectService.workflowFinalize ProjectService.startWorkflowJobRecord 0
      (.failed [] "push rejected".data)).error =
        ProjectService.startWorkflowJobRecord.error
    ∧ ("Git Sync Warning: ".data ++ "push rejected".data) ∈
        (ProjectService.workflowFinalize ProjectService.startWorkflowJobRecord 0
          (.failed [] "push rejected".data)).logs :=
  C6_push_failure_downgraded ProjectService.startWorkflowJobRecord 0 _ []
    "push rejected".data rfl rfl

/-- C4: an analyze or import job for an `https://` URL, with a default SSH
key present and no truthy `GITHUB_TOKEN`, fails with the specific
actionable SSH-URL message and never attempts a clone. -/
theorem C4_https_guard_blocks_clone (url : Str)
    (envA : ProjectImportService.AnalyzeEnv)
    (envI : ProjectImportService.ImportEnv) (importType : Str)
    (sel : Option (List Str))
    (hurl : pyStartsWith url "https://".data = true)
    (hkeyA : ProjectImportService.has_ssh_key envA.sshDirFiles = true)
    (htokA : strTruthy envA.githubToken = false)
    (hkeyI : ProjectImportService.has_ssh_key envI.sshDirFiles = true)
    (htokI : strTruthy envI.githubToken = false) :
    ((ProjectImportService.run_analyze_job url envA).1.status = JobStatus.failed
      ∧ (ProjectImportService.run_analyze_job url envA).1.error =
          some ProjectImportService.httpsGuardMsg
      ∧ (ProjectImportService.run_analyze_job url envA).2 = [])
    ∧ ((ProjectImportService.run_import_job url importType sel envI).1.status =
          JobStatus.failed
      ∧ (ProjectImportService.run_import_job url importType sel envI).1.error =
          some ProjectImportService.httpsGuardMsg
      ∧ (ProjectImportService.run_import_job url importType sel envI).2.1 = []) := by
  have hgA : ProjectImportService.httpsGuardTriggered url envA.sshDirFiles
      envA.githubToken = true := by
    simp [ProjectImportService.httpsGuardTriggered, hurl, hkeyA, htokA]
  have hgI : ProjectImportService.httpsGuardTriggered url envI.sshDirFiles
      envI.githubToken = true := by
    simp [ProjectImportService.httpsGuardTriggered, hurl, hkeyI, htokI]
  constructor
  · unfold ProjectImportService.run_analyze_job
    rw [hgA]
    exact ⟨rfl, rfl, rfl⟩
  · unfold ProjectImportService.run_import_job
    rw [hgI]
    exact ⟨rfl, rfl, rfl⟩

/-- Witness for C4 at a concrete HTTPS URL, an `id_rsa` key on disk and an
unset token. -/
theorem C4_witness :
    ((ProjectImportService.run_analyze_job "https://github.com/a/b.git".data
        ⟨["id_rsa".data], none, Except.error "never reached".data⟩).1.status =
          JobStatus.failed
      ∧ (ProjectImportService.run_analyze_job "https://github.com/a/b.git".data
        ⟨["id_rsa".data], none, Except.error "never reached".data⟩).1.error =
          some ProjectImportService.httpsGuardMsg
      ∧ (ProjectImportService.run_analyze_job "https://github.com/a/b.git".data
        ⟨["id_rsa".data], none, Except.error "never reached".data⟩).2 = [])
    ∧ ((ProjectImportService.run_import_job "https://github.com/a/b.git".data
        "type1".data none
        ⟨["id_rsa".data], none, "root".data, [], false, Except.ok (), Except.ok (),
          fun _ => []⟩).1.status = JobStatus.failed
      ∧ (ProjectImportService.run_import_job "https://github.com/a/b.git".data
        "type1".data none
        ⟨["id_rsa".data], none, "root".data, [], false, Except.ok (), Except.ok (),
          fun _ => []⟩).1.error = some ProjectImportService.httpsGuardMsg
      ∧ (ProjectImportService.run_import_job "https://github.com/a/b.git".data
        "type1".data none
        ⟨["id_rsa".data], none, "root".data, [], false, Except.ok (), Except.ok (),
          fun _ => []⟩).2.1 = []) :=
  C4_https_guard_blocks_clone "https://github.com/a/b.git".data
    ⟨["id_rsa".data], none, Except.error "never reached".data⟩
    ⟨["id_rsa".data], none, "root".data, [], false, Except.ok (), Except.ok (),
      fun _ => []⟩
    "type1".data none (by decide) (by decide) (by decide) (by decide) (by decide)

/-- C7 fails as stated: the import-service normalizer truncates with
`int()` instead of rounding (`cur = 1`, `max = 160` yields 0 where the
claimed formula yields 1), and the project_service normalizer applies no
`min(99, ·)` at all (`cur = max = 7` yields 100 where the claimed formula
yields 99). -/
theorem C7_counterexample :
    (ProjectImportService.cloneProgressUpdate
      (ProjectImportService.startAnalyzeJobRecord "u".data) 1 (some 160)
      []).percent = 0
    ∧ (min 99 (round ((100 : ℚ) * 1 / 160)) : ℤ) = 1
    ∧ (ProjectService.cloneProgressUpdate ProjectService.startCloneJobRecord
        7 (some 7) []).percent = 100
    ∧ (min 99 (round ((100 : ℚ) * 7 / 7)) : ℤ) = 99 := by
  refine ⟨?_, ?_, ?_, ?_⟩
  · norm_num [ProjectImportService.cloneProgressUpdate, pyInt,
      ProjectImportService.startAnalyzeJobRecord, Int.floor_eq_zero_iff,
      Set.mem_Ico]
  · norm_num [round_eq]
  · norm_num [ProjectService.cloneProgressUpdate,
      ProjectService.startCloneJobRecord]
  · norm_num [round_eq]

/-- Floor of a nonnegative rational clamped at 99: truncation commutes
with the clamp. -/
theorem pyInt_min99 (x : ℚ) (hx : 0 ≤ x) :
    pyInt (min x 99) = min 99 ⌊x⌋ := by
  have h0 : (0 : ℚ) ≤ min x 99 := le_min hx (by norm_num)
  have h99 : ⌊(99 : ℚ)⌋ = 99 := by norm_num
  unfold pyInt
  rw [if_pos h0]
  rcases le_total x 99 with h | h
  · rw [min_eq_left h, min_eq_right]
    calc ⌊x⌋ ≤ ⌊(99 : ℚ)⌋ := Int.floor_le_floor h
    _ = 99 := h99
  · rw [min_eq_right h, h99, min_eq_left]
    exact Int.le_floor.mpr (by exact_mod_cast h)

/-- C7 amended: with a known positive maximum the import-service
normalizer writes `min(99, ⌊100·cur/max⌋)` (truncation, not rounding)
while the project_service normalizer writes the raw unclamped
`100·cur/max`; both write 0 when the maximum is unknown, and append every
non-empty message to the log with the `[GIT] ` tool prefix. -/
theorem C7_amended_normalizer :
    (∀ (j : ProjectImportService.JobRec) (cur m : ℚ) (msg : Str),
      0 ≤ cur → 0 < m →
      (ProjectImportService.cloneProgressUpdate j cur (some m) msg).percent =
        ((min 99 ⌊cur / m * 100⌋ : ℤ) : ℚ))
    ∧ (∀ (j : ProjectImportService.JobRec) (cur : ℚ) (msg : Str),
      (ProjectImportService.cloneProgressUpdate j cur none msg).percent = 0)
    ∧ (∀ (j : ProjectService.JobRec) (cur m : ℚ) (msg : Str), m ≠ 0 →
      (ProjectService.cloneProgressUpdate j cur (some m) msg).percent =
        cur / m * 100)
    ∧ (∀ (j : ProjectService.JobRec) (cur : ℚ) (msg : Str),
      (ProjectService.cloneProgressUpdate j cur none msg).percent = 0)
    ∧ (∀ (j : ProjectImportService.JobRec) (cur : ℚ) (mc : Option ℚ)
        (msg : Str), msg ≠ [] →
      (ProjectImportService.cloneProgressUpdate j cur mc msg).logs =
        j.logs ++ ["[GIT] ".data ++ msg]
      ∧ (ProjectImportService.cloneProgressUpdate j cur mc msg).message = msg)
    ∧ (∀ (j : ProjectService.JobRec) (cur : ℚ) (mc : Option ℚ) (msg : Str),
        msg ≠ [] →
      (ProjectService.cloneProgressUpdate j cur mc msg).logs =
        j.logs ++ ["[GIT] ".data ++ msg]
      ∧ (ProjectService.cloneProgressUpdate j cur mc msg).message = msg) := by
  refine ⟨?_, ?_, ?_, ?_, ?_, ?_⟩
  · intro j cur m msg hcur hm
    have hcond : m ≠ 0 ∧ 0 < m := ⟨ne_of_gt hm, hm⟩
    have hx : (0 : ℚ) ≤ cur / m * 100 := by positivity
    unfold ProjectImportService.cloneProgressUpdate
    dsimp only
    rw [if_pos hcond, pyInt_min99 _ hx]
  · intro j cur msg
    unfold ProjectImportService.cloneProgressUpdate
    dsimp only
    norm_num [pyInt]
  · intro j cur m msg hm
    unfold ProjectService.cloneProgressUpdate
    dsimp only
    rw [if_pos hm]
  · intro j cur msg
    rfl
  · intro j cur mc msg hmsg
    unfold ProjectImportService.cloneProgressUpdate
    dsimp only
    rw [if_pos hmsg, if_pos hmsg]
    exact ⟨rfl, rfl⟩
  · intro j cur mc msg hmsg
    unfold ProjectService.cloneProgressUpdate
    dsimp only
    rw [if_pos hmsg, if_pos hmsg]
    exact ⟨rfl, rfl⟩

/-- Witness for C7: the amended formulas at concrete callback inputs. -/
theorem C7_witness :
    ((ProjectImportService.cloneProgressUpdate
        (ProjectImportService.startAnalyzeJobRecord "u".data) 1 (some 2)
        []).percent = ((min 99 ⌊(1 : ℚ) / 2 * 100⌋ : ℤ) : ℚ))
    ∧ ((ProjectService.cloneProgressUpdate ProjectService.startCloneJobRecord
        1 (some 2) []).percent = (1 : ℚ) / 2 * 100)
    ∧ ((ProjectImportService.cloneProgressUpdate
        (ProjectImportService.startAnalyzeJobRecord "u".data) 1 (some 2)
        "recv".data).logs =
          (ProjectImportService.startAnalyzeJobRecord "u".data).logs ++
            ["[GIT] ".data ++ "recv".data]) :=
  ⟨C7_amended_normalizer.1 _ 1 2 [] (by decide) (by decide),
    C7_amended_normalizer.2.2.1 _ 1 2 [] (by decide),
    (C7_amended_normalizer.2.2.2.2.1 _ 1 (some 2) "recv".data
      (by decide)).1⟩

/-! ## Sort membership lemmas -/

theorem mem_pyInsert (le : α → α → Bool) (x y : α) (l : List α) :
    y ∈ pyInsert le x l ↔ y = x ∨ y ∈ l := by
  induction l with
  | nil => simp [pyInsert]
  | cons hd tl ih =>
    unfold pyInsert
    by_cases h : le x hd
    · simp [h]
    · simp only [h]
      simp [ih]
      tauto

theorem mem_pySortBy (le : α → α → Bool) (y : α) (l : List α) :
    y ∈ pySortBy le l ↔ y ∈ l := by
  induction l with
  | nil => simp [pySortBy]
  | cons hd tl ih =>
    unfold pySortBy
    rw [mem_pyInsert, ih]
    simp

theorem length_pyInsert (le : α → α → Bool) (x : α) (l : List α) :
    (pyInsert le x l).length = l.length + 1 := by
  induction l with
  | nil => rfl
  | cons hd tl ih =>
    unfold pyInsert
    by_cases h : le x hd <;> simp [h, ih]

theorem length_pySortBy (le : α → α → Bool) (l : List α) :
    (pySortBy le l).length = l.length := by
  induction l with
  | nil => rfl
  | cons hd tl ih =>
    unfold pySortBy
    rw [length_pyInsert, ih]
    rfl

/-- The commit-2 iteration of the export loop never writes the
manifest. -/
theorem commitStep_not_commit1 (sch : DiffService.SchExport)
    (pcb : DiffService.PcbExport) (m : DiffService.Manifest) :
    DiffService.commitStep false sch pcb m = m := by
  unfold DiffService.commitStep
  simp

/-- C2 fails as stated: when the commit-1 board export fails entirely (board
file present, non-zero exit — or the board file is missing from the
snapshot), the persisted manifest has no `layers` key at all, rather than
`layers = []`. -/
theorem C2_counterexample :
    (DiffService.buildManifest "j1".data "c1".data "c2".data
      ⟨true, 0, ["root.svg".data]⟩
      ⟨true, "board".data, none, 1, []⟩
      ⟨false, 0, []⟩ ⟨false, "b".data, none, 0, []⟩).layers = none
    ∧ (DiffService.buildManifest "j1".data "c1".data "c2".data
      ⟨true, 0, ["root.svg".data]⟩
      ⟨false, "board".data, none, 0, []⟩
      ⟨false, 0, []⟩ ⟨false, "b".data, none, 0, []⟩).layers = none := by
  constructor <;> decide

/-- The commit-1 iteration leaves the identifying manifest fields
untouched. -/
theorem commitStep_plain_fields (c : Bool) (sch : DiffService.SchExport)
    (pcb : DiffService.PcbExport) (m : DiffService.Manifest) :
    (DiffService.commitStep c sch pcb m).jobId = m.jobId
    ∧ (DiffService.commitStep c sch pcb m).commit1 = m.commit1
    ∧ (DiffService.commitStep c sch pcb m).commit2 = m.commit2 := by
  unfold DiffService.commitStep
  dsimp only
  split <;> split <;> exact ⟨rfl, rfl, rfl⟩

/-- `layers` written by the commit-1 iteration on board-export success. -/
theorem commitStep_layers_success (sch : DiffService.SchExport)
    (pcb : DiffService.PcbExport) (m : DiffService.Manifest)
    (h1 : pcb.fileFound = true) (h2 : pcb.exitCode = 0) :
    (DiffService.commitStep true sch pcb m).layers =
      some (pySorted ((pcb.svgNames.filterMap
        (DiffService.matchLayer
          (DiffService.getPcbLayers true pcb.parsedLayers) pcb.stem)).dedup)) := by
  unfold DiffService.commitStep
  dsimp only
  rw [if_pos ⟨h1, h2, rfl⟩]

/-- `layers` untouched by the commit-1 iteration on board-export
failure. -/
theorem commitStep_layers_failure (sch : DiffService.SchExport)
    (pcb : DiffService.PcbExport) (m : DiffService.Manifest)
    (h : ¬(pcb.fileFound = true ∧ pcb.exitCode = 0)) :
    (DiffService.commitStep true sch pcb m).layers = m.layers := by
  unfold DiffService.commitStep
  dsimp only
  rw [if_neg (fun hc => h ⟨hc.1, hc.2.1⟩)]
  split <;> rfl

/-- `sheets` written by the commit-1 iteration on schematic-export
success. -/
theorem commitStep_sheets_success (sch : DiffService.SchExport)
    (pcb : DiffService.PcbExport) (m : DiffService.Manifest)
    (h1 : sch.fileFound = true) (h2 : sch.exitCode = 0) :
    (DiffService.commitStep true sch pcb m).sheets =
      some (pySorted sch.svgNames) := by
  unfold DiffService.commitStep
  dsimp only
  split <;> rw [if_pos ⟨h1, h2, rfl⟩]

/-- `sheets` untouched by the commit-1 iteration on schematic-export
failure. -/
theorem commitStep_sheets_failure (sch : DiffService.SchExport)
    (pcb : DiffService.PcbExport) (m : DiffService.Manifest)
    (h : ¬(sch.fileFound = true ∧ sch.exitCode = 0)) :
    (DiffService.commitStep true sch pcb m).sheets = m.sheets := by
  unfold DiffService.commitStep
  dsimp only
  split <;> rw [if_neg (fun hc => h ⟨hc.1, hc.2.1⟩)]

/-- C2 amended: the manifest of a completed diff job always carries `job_id`,
`commit1`, `commit2`; `layers` is present exactly when the commit-1 board
export succeeded, and is then a subset of the declared-or-fallback board
layer names; when the board export failed entirely the key is absent (and
`sheets` behaves the same way for the schematic). -/
theorem C2_amended_manifest (jobId c1 c2 : Str)
    (sch1 : DiffService.SchExport) (pcb1 : DiffService.PcbExport)
    (sch2 : DiffService.SchExport) (pcb2 : DiffService.PcbExport) :
    (DiffService.buildManifest jobId c1 c2 sch1 pcb1 sch2 pcb2).jobId = jobId
    ∧ (DiffService.buildManifest jobId c1 c2 sch1 pcb1 sch2 pcb2).commit1 = c1
    ∧ (DiffService.buildManifest jobId c1 c2 sch1 pcb1 sch2 pcb2).commit2 = c2
    ∧ (∀ L, (DiffService.buildManifest jobId c1 c2 sch1 pcb1 sch2 pcb2).layers
          = some L →
        ∀ x ∈ L, x ∈ DiffService.getPcbLayers true pcb1.parsedLayers)
    ∧ ((pcb1.fileFound = false ∨ pcb1.exitCode ≠ 0) →
        (DiffService.buildManifest jobId c1 c2 sch1 pcb1 sch2 pcb2).layers = none)
    ∧ ((sch1.fileFound = false ∨ sch1.exitCode ≠ 0) →
        (DiffService.buildManifest jobId c1 c2 sch1 pcb1 sch2 pcb2).sheets = none)
    ∧ (pcb1.fileFound = true → pcb1.exitCode = 0 →
        ∃ L, (DiffService.buildManifest jobId c1 c2 sch1 pcb1 sch2 pcb2).layers
          = some L) := by
  unfold DiffService.buildManifest
  rw [commitStep_not_commit1]
  obtain ⟨hid, hc1, hc2⟩ := commitStep_plain_fields true sch1 pcb1
    (DiffService.initManifest jobId c1 c2)
  refine ⟨hid, hc1, hc2, ?_, ?_, ?_, ?_⟩
  · intro L hL x hx
    by_cases hpcb : pcb1.fileFound = true ∧ pcb1.exitCode = 0
    · rw [commitStep_layers_success sch1 pcb1 _ hpcb.1 hpcb.2] at hL
      rw [← Option.some_injective _ hL] at hx
      rw [pySorted, mem_pySortBy, List.mem_dedup] at hx
      obtain ⟨leaf, _, hfind⟩ := List.mem_filterMap.mp hx
      exact List.mem_of_find?_eq_some hfind
    · rw [commitStep_layers_failure sch1 pcb1 _ hpcb] at hL
      exact absurd hL (by simp [DiffService.initManifest])
  · intro h
    rw [commitStep_layers_failure sch1 pcb1 _ ?_]
    · rfl
    · rintro ⟨ha, hb⟩
      rcases h with h | h
      · rw [h] at ha
        exact Bool.noConfusion ha
      · exact h hb
  · intro h
    rw [commitStep_sheets_failure sch1 pcb1 _ ?_]
    · rfl
    · rintro ⟨ha, hb⟩
      rcases h with h | h
      · rw [h] at ha
        exact Bool.noConfusion ha
      · exact h hb
  · intro h1 h2
    exact ⟨_, commitStep_layers_success sch1 pcb1 _ h1 h2⟩

/-- Witness for C2: a successful export where one produced file matches a
declared layer (by dot-to-underscore suffix matching) and a stray file
matches none; the declared subset certificate is produced for the
resulting `layers = ["F.Cu"]`. -/
theorem C2_witness :
    ∀ x ∈ (["F.Cu".data] : List Str),
      x ∈ DiffService.getPcbLayers true
        (some ["F.Cu".data, "B.Cu".data]) := by
  intro x hx
  exact (C2_amended_manifest "j1".data "c1".data "c2".data
    ⟨true, 0, ["root.svg".data]⟩
    ⟨true, "board".data, some ["F.Cu".data, "B.Cu".data], 0,
      ["board-F_Cu.svg".data, "stray.svg".data]⟩
    ⟨false, 0, []⟩ ⟨false, "b".data, none, 0, []⟩).2.2.2.1
    ["F.Cu".data] (by decide) x hx

/-- C9 fails as stated: inside the terminal transition of
`_run_diff_generation` the status write comes first, so a poll right after it
sees `failed` with `error` still `None`, and the next poll sees the error
filled in — the record is mutated after the terminal status is written
(the success path likewise writes `percent`/`message`/log after
`'completed'`). -/
theorem C9_counterexample :
    ((DiffService.runStates DiffService.startDiffJobRecord []
      (some "boom".data)).getD 1 DiffService.startDiffJobRecord).status =
        JobStatus.failed
    ∧ ((DiffService.runStates DiffService.startDiffJobRecord []
      (some "boom".data)).getD 1 DiffService.startDiffJobRecord).error = none
    ∧ ((DiffService.runStates DiffService.startDiffJobRecord []
      (some "boom".data)).getD 2 DiffService.startDiffJobRecord).error =
        some "boom".data
    ∧ ((DiffService.runStates DiffService.startDiffJobRecord [] none).getD 1
        DiffService.startDiffJobRecord).status = JobStatus.completed
    ∧ ((DiffService.runStates DiffService.startDiffJobRecord [] none).getD 1
        DiffService.startDiffJobRecord).percent = 0
    ∧ ((DiffService.runStates DiffService.startDiffJobRecord [] none).getD 3
        DiffService.startDiffJobRecord).percent = 100 := by
  refine ⟨rfl, rfl, rfl, rfl, by decide, by decide⟩

/-- C9 amended: once the terminal transition of the worker has fully completed
(its trailing error/percent/message/log writes included, whose final
values are fixed below), the record is never mutated again: the status
query is a pure read of the stored record, and a delete request against a
terminal job removes the record outright — leaving every other record
untouched — rather than mutating it. -/
theorem C9_amended_post_terminal_quiescence :
    (∀ (j : DiffService.JobRec) (e : Str),
      (DiffService.failureFinalizeStates j e).getLast? =
        some { j with status := JobStatus.failed, error := some e
                      logs := j.logs ++ ["Critical Error: ".data ++ e] })
    ∧ (∀ j : DiffService.JobRec,
      (DiffService.successFinalizeStates j).getLast? =
        some { j with status := JobStatus.completed
                      message := "Ready".data
                      percent := 100
                      logs := j.logs ++ ["Diff generation complete.".data] })
    ∧ (∀ (st : DiffService.StoreState) (jobId : Str), DiffService.getJobStatus
        st jobId = dictGet jobId st.jobs)
    ∧ (∀ (st : DiffService.StoreState) (jobId : Str) (job : DiffService.JobRec),
      dictGet jobId st.jobs = some job → job.status ≠ JobStatus.running →
      DiffService.getJobStatus (DiffService.deleteJob st jobId) jobId = none)
    ∧ (∀ (st : DiffService.StoreState) (a b : Str), a ≠ b →
      DiffService.getJobStatus (DiffService.deleteJob st a) b =
        DiffService.getJobStatus st b) := by
  refine ⟨fun j e => rfl, fun j => rfl, fun st jobId => rfl, ?_, ?_⟩
  · intro st jobId job hget hterm
    unfold DiffService.deleteJob DiffService.cleanupJob DiffService.getJobStatus
    rw [hget]
    dsimp only
    rw [if_neg hterm]
    dsimp only
    rw [dictGet_dictDel]
    simp
  · intro st a b hab
    unfold DiffService.deleteJob DiffService.cleanupJob DiffService.getJobStatus
    rcases hget : dictGet a st.jobs with _ | job
    · rfl
    · dsimp only
      by_cases hrun : job.status = JobStatus.running
      · rw [if_pos hrun]
        dsimp only
        rw [dictGet_dictSet, if_neg hab]
      · rw [if_neg hrun]
        dsimp only
        rw [dictGet_dictDel, if_neg hab]

/-- Witness for C9: deleting a completed job removes its record and does
not disturb a failed neighbour. -/
theorem C9_witness :
    DiffService.getJobStatus
      (DiffService.deleteJob
        ⟨[("a".data, { DiffService.startDiffJobRecord with
            status := JobStatus.completed }),
          ("b".data, { DiffService.startDiffJobRecord with
            status := JobStatus.failed })], []⟩ "a".data) "a".data = none
    ∧ DiffService.getJobStatus
      (DiffService.deleteJob
        ⟨[("a".data, { DiffService.startDiffJobRecord with
            status := JobStatus.completed }),
          ("b".data, { DiffService.startDiffJobRecord with
            status := JobStatus.failed })], []⟩ "a".data) "b".data =
      DiffService.getJobStatus
        ⟨[("a".data, { DiffService.startDiffJobRecord with
            status := JobStatus.completed }),
          ("b".data, { DiffService.startDiffJobRecord with
            status := JobStatus.failed })], []⟩ "b".data :=
  ⟨C9_amended_post_terminal_quiescence.2.2.2.1 _ "a".data
      { DiffService.startDiffJobRecord with status := JobStatus.completed }
      (by decide) (by decide),
    C9_amended_post_terminal_quiescence.2.2.2.2 _ "a".data "b".data
      (by decide)⟩

/-! ## Percent monotonicity helpers -/

/-- A list whose percents are constant is monotone. -/
theorem pairwise_const_block (f : α → ℚ) (l : List α) (p : ℚ)
    (h : ∀ s ∈ l, f s = p) :
    List.Pairwise (fun a b => f a ≤ f b) l :=
  List.pairwise_of_forall_mem_list (fun a ha b hb => by rw [h a ha, h b hb])

/-- A low block followed by a high block is monotone. -/
theorem pairwise_two_blocks (f : α → ℚ) (l1 l2 : List α) (p q : ℚ)
    (hpq : p ≤ q) (h1 : ∀ s ∈ l1, f s = p) (h2 : ∀ s ∈ l2, f s = q) :
    List.Pairwise (fun a b => f a ≤ f b) (l1 ++ l2) := by
  rw [List.pairwise_append]
  exact ⟨pairwise_const_block f l1 p h1, pairwise_const_block f l2 q h2,
    fun a ha b hb => by rw [h1 a ha, h2 b hb]; exact hpq⟩

/-- As `pairwise_two_blocks`, through an explicit decomposition. -/
theorem pairwise_mono_split (f : α → ℚ) (l : List α) (p q : ℚ) (hpq : p ≤ q)
    (h : ∃ l1 l2, l = l1 ++ l2 ∧ (∀ s ∈ l1, f s = p) ∧ (∀ s ∈ l2, f s = q)) :
    List.Pairwise (fun a b => f a ≤ f b) l := by
  obtain ⟨l1, l2, rfl, h1, h2⟩ := h
  exact pairwise_two_blocks f l1 l2 p q hpq h1 h2

/-- Log-only states keep every non-log field. -/
theorem diffLogStates_fields (j : DiffService.JobRec)
    (lines : List Str) :
    ∀ s ∈ DiffService.logStates j lines,
      s.percent = j.percent ∧ s.status = j.status := by
  intro s hs
  unfold DiffService.logStates at hs
  obtain ⟨k, -, rfl⟩ := List.mem_map.mp hs
  exact ⟨rfl, rfl⟩

/-- Log-only states keep every non-log field. -/
theorem psLogStates_fields (j : ProjectService.JobRec)
    (lines : List Str) :
    ∀ s ∈ ProjectService.logStates j lines,
      s.percent = j.percent ∧ s.status = j.status := by
  intro s hs
  unfold ProjectService.logStates at hs
  obtain ⟨k, -, rfl⟩ := List.mem_map.mp hs
  exact ⟨rfl, rfl⟩

/-- On exit code 0 every workflow-epilogue state reports 100 percent. -/
theorem ProjectService.workflowEpilogueStates_percent_100
    (j : ProjectService.JobRec) (sync : ProjectService.GitSyncOutcome) :
    ∀ s ∈ ProjectService.workflowEpilogueStates j 0 sync, s.percent = 100 := by
  intro s hs
  unfold ProjectService.workflowEpilogueStates at hs
  rw [if_pos rfl] at hs
  simp only [List.mem_append, List.mem_cons, List.mem_singleton,
    List.not_mem_nil, or_false] at hs
  rcases hs with ((h | h | h) | h) | (h | h)
  · rw [h]
  · rw [h]
  · rw [h]; rfl
  · exact ((psLogStates_fields _ _ s h).1).trans rfl
  · rw [h]; rfl
  · rw [h]; rfl

/-- On a non-zero exit code no workflow-epilogue state touches percent. -/
theorem ProjectService.workflowEpilogueStates_percent_keep
    (j : ProjectService.JobRec) (rc : ℤ)
    (sync : ProjectService.GitSyncOutcome) (hrc : rc ≠ 0) :
    ∀ s ∈ ProjectService.workflowEpilogueStates j rc sync,
      s.percent = j.percent := by
  intro s hs
  unfold ProjectService.workflowEpilogueStates at hs
  rw [if_neg hrc] at hs
  simp only [List.mem_cons, List.mem_singleton, List.not_mem_nil,
    or_false] at hs
  rcases hs with h | h | h <;> subst h <;> rfl

/-- Truncation keeps an integer bound from above (used for the 99
clamp). -/
theorem pyInt_le_of_le (q : ℚ) (c : ℤ) (h : q ≤ (c : ℚ)) (hc : 0 ≤ c) :
    pyInt q ≤ c := by
  unfold pyInt
  split
  · calc ⌊q⌋ ≤ ⌊(c : ℚ)⌋ := Int.floor_le_floor h
    _ = c := Int.floor_intCast c
  · rename_i hq
    push_neg at hq
    calc ⌈q⌉ ≤ 0 := Int.ceil_le.mpr (by exact_mod_cast le_of_lt hq)
    _ ≤ c := hc

/-- C1 fails as stated: the workflow success path writes `percent = 100`
(line 481) while the status is still `running` — the git sync then runs
before `status := 'completed'` — and the unclamped project_service clone
normalizer both reports 100 mid-clone and drops back to 0 when a callback
arrives without a maximum. -/
theorem C1_counterexample :
    (((ProjectService.runWorkflowStates [] 0 (.ok [])).getD 1
        ProjectService.startWorkflowJobRecord).percent = 100
      ∧ ((ProjectService.runWorkflowStates [] 0 (.ok [])).getD 1
        ProjectService.startWorkflowJobRecord).status = JobStatus.running)
    ∧ ((ProjectService.cloneProgressUpdate ProjectService.startCloneJobRecord
        7 (some 7) []).percent = 100
      ∧ (ProjectService.cloneProgressUpdate ProjectService.startCloneJobRecord
        7 (some 7) []).status = JobStatus.running)
    ∧ (ProjectService.cloneProgressUpdate
        (ProjectService.cloneProgressUpdate ProjectService.startCloneJobRecord
          50 (some 100) []) 3 none []).percent <
      (ProjectService.cloneProgressUpdate ProjectService.startCloneJobRecord
        50 (some 100) []).percent := by
  refine ⟨⟨rfl, rfl⟩, ⟨?_, rfl⟩, ?_⟩
  · norm_num [ProjectService.cloneProgressUpdate,
      ProjectService.startCloneJobRecord]
  · norm_num [ProjectService.cloneProgressUpdate,
      ProjectService.startCloneJobRecord]

/-- C1 amended: progress is monotone and reaches 100 only at terminal
success for visual-diff jobs; the import-service normalizer clamps at 99
so import percents never reach 100 before the own completion step of the
pipeline; workflow traces are still monotone (0 then 100), but the 100 there
precedes terminal status, and the project_service clone normalizer is
unclamped and non-monotone (see the counterexample). -/
theorem C1_amended_progress :
    (∀ (bodyLogs : List Str) (outcome : Option Str),
      List.Pairwise (fun a b => a.percent ≤ b.percent)
        (DiffService.runStates DiffService.startDiffJobRecord bodyLogs outcome)
      ∧ ∀ s ∈ DiffService.runStates DiffService.startDiffJobRecord bodyLogs
          outcome, s.percent = 100 → s.status = JobStatus.completed)
    ∧ (∀ (j : ProjectImportService.JobRec) (cur : ℚ) (mc : Option ℚ)
        (msg : Str),
      (ProjectImportService.cloneProgressUpdate j cur mc msg).percent ≤ 99)
    ∧ (∀ (bodyLogs : List Str) (rc : ℤ) (sync : ProjectService.GitSyncOutcome),
      List.Pairwise (fun a b => a.percent ≤ b.percent)
        (ProjectService.runWorkflowStates bodyLogs rc sync)) := by
  refine ⟨?_, ?_, ?_⟩
  · intro bodyLogs outcome
    constructor
    · rcases outcome with _ | e
      · apply pairwise_mono_split
          (fun s : DiffService.JobRec => s.percent) _ 0 100 (by norm_num)
        refine ⟨DiffService.startDiffJobRecord ::
            (DiffService.logStates DiffService.startDiffJobRecord bodyLogs ++
              [{ DiffService.startDiffJobRecord with
                  logs := DiffService.startDiffJobRecord.logs ++ bodyLogs
                  status := JobStatus.completed },
               { DiffService.startDiffJobRecord with
                  logs := DiffService.startDiffJobRecord.logs ++ bodyLogs
                  status := JobStatus.completed
                  message := "Ready".data }]),
          [{ DiffService.startDiffJobRecord with
              logs := DiffService.startDiffJobRecord.logs ++ bodyLogs
              status := JobStatus.completed
              message := "Ready".data
              percent := 100 },
           { DiffService.startDiffJobRecord with
              logs := (DiffService.startDiffJobRecord.logs ++ bodyLogs) ++
                ["Diff generation complete.".data]
              status := JobStatus.completed
              message := "Ready".data
              percent := 100 }], ?_, ?_, ?_⟩
        · simp [DiffService.runStates, DiffService.successFinalizeStates,
            DiffService.appendLog, List.cons_append, List.append_assoc]
        · intro s hs
          rcases List.mem_cons.mp hs with h | hs2
          · subst h; rfl
          rcases List.mem_append.mp hs2 with h | h
          · exact (diffLogStates_fields _ _ s h).1.trans rfl
          rcases List.mem_cons.mp h with h | h
          · subst h; rfl
          rcases List.mem_cons.mp h with h | h
          · subst h; rfl
          · exact absurd h (List.not_mem_nil s)
        · intro s hs
          rcases List.mem_cons.mp hs with h | h
          · subst h; rfl
          rcases List.mem_cons.mp h with h | h
          · subst h; rfl
          · exact absurd h (List.not_mem_nil s)
      · apply pairwise_const_block
          (fun s : DiffService.JobRec => s.percent) _ 0
        intro s hs
        unfold DiffService.runStates at hs
        dsimp only at hs
        rcases List.mem_cons.mp hs with h | hs2
        · subst h; rfl
        rcases List.mem_append.mp hs2 with h | h
        · exact (diffLogStates_fields _ _ s h).1.trans rfl
        unfold DiffService.failureFinalizeStates at h
        dsimp only at h
        rcases List.mem_cons.mp h with h | h
        · subst h; rfl
        rcases List.mem_cons.mp h with h | h
        · subst h; rfl
        rcases List.mem_cons.mp h with h | h
        · subst h; rfl
        · exact absurd h (List.not_mem_nil s)
    · intro s hs hp
      rcases outcome with _ | e
      · unfold DiffService.runStates at hs
        dsimp only at hs
        rcases List.mem_cons.mp hs with h | hs2
        · rw [h] at hp
          exact absurd hp (by norm_num [DiffService.startDiffJobRecord])
        rcases List.mem_append.mp hs2 with h | h
        · have h0 := (diffLogStates_fields _ _ s h).1
          rw [h0] at hp
          exact absurd hp (by norm_num [DiffService.startDiffJobRecord])
        unfold DiffService.successFinalizeStates at h
        dsimp only at h
        rcases List.mem_cons.mp h with h | h
        · rw [h] at hp
          exact absurd hp (by norm_num [DiffService.startDiffJobRecord])
        rcases List.mem_cons.mp h with h | h
        · rw [h] at hp
          exact absurd hp (by norm_num [DiffService.startDiffJobRecord])
        rcases List.mem_cons.mp h with h | h
        · subst h; rfl
        rcases List.mem_cons.mp h with h | h
        · subst h; rfl
        · exact absurd h (List.not_mem_nil s)
      · unfold DiffService.runStates at hs
        dsimp only at hs
        rcases List.mem_cons.mp hs with h | hs2
        · rw [h] at hp
          exact absurd hp (by norm_num [DiffService.startDiffJobRecord])
        rcases List.mem_append.mp hs2 with h | h
        · have h0 := (diffLogStates_fields _ _ s h).1
          rw [h0] at hp
          exact absurd hp (by norm_num [DiffService.startDiffJobRecord])
        unfold DiffService.failureFinalizeStates at h
        dsimp only at h
        rcases List.mem_cons.mp h with h | h
        · rw [h] at hp
          exact absurd hp (by norm_num [DiffService.startDiffJobRecord])
        rcases List.mem_cons.mp h with h | h
        · rw [h] at hp
          exact absurd hp (by norm_num [DiffService.startDiffJobRecord])
        rcases List.mem_cons.mp h with h | h
        · rw [h] at hp
          exact absurd hp (by norm_num [DiffService.startDiffJobRecord,
            DiffService.appendLog])
        · exact absurd h (List.not_mem_nil s)
  · intro j cur mc msg
    rcases mc with _ | m
    · show ((pyInt 0 : ℤ) : ℚ) ≤ 99
      norm_num [pyInt]
    · show ((pyInt (if m ≠ 0 ∧ 0 < m then min (cur / m * 100) 99 else 0) : ℤ)
        : ℚ) ≤ 99
      by_cases hm : m ≠ 0 ∧ 0 < m
      · rw [if_pos hm]
        have h1 : pyInt (min (cur / m * 100) 99) ≤ (99 : ℤ) := by
          apply pyInt_le_of_le
          · push_cast
            exact min_le_right _ _
          · norm_num
        exact_mod_cast h1
      · rw [if_neg hm]
        norm_num [pyInt]
  · intro bodyLogs rc sync
    by_cases hrc : rc = 0
    · subst hrc
      apply pairwise_mono_split
        (fun s : ProjectService.JobRec => s.percent) _ 0 100 (by norm_num)
      refine ⟨ProjectService.startWorkflowJobRecord ::
          ProjectService.logStates ProjectService.startWorkflowJobRecord
            bodyLogs,
        ProjectService.workflowEpilogueStates
          { ProjectService.startWorkflowJobRecord with
              logs := ProjectService.startWorkflowJobRecord.logs ++ bodyLogs }
          0 sync, rfl, ?_, ?_⟩
      · intro s hs
        rcases List.mem_cons.mp hs with h | h
        · subst h; rfl
        · exact (psLogStates_fields _ _ s h).1.trans rfl
      · exact ProjectService.workflowEpilogueStates_percent_100 _ sync
    · apply pairwise_const_block
        (fun s : ProjectService.JobRec => s.percent) _ 0
      intro s hs
      unfold ProjectService.runWorkflowStates at hs
      dsimp only at hs
      rcases List.mem_cons.mp hs with h | hs2
      · subst h; rfl
      rcases List.mem_append.mp hs2 with h | h
      · exact (psLogStates_fields _ _ s h).1.trans rfl
      · exact (ProjectService.workflowEpilogueStates_percent_keep _ rc sync
          hrc s h).trans rfl

/-- Witness for C1: at an empty body and a successful outcome, the
diff trace ends at 100 with status `completed`, and a clamped
clone callback stays at 99. -/
theorem C1_witness :
    ((DiffService.runStates DiffService.startDiffJobRecord [] none).getD 3
        DiffService.startDiffJobRecord).status = JobStatus.completed
    ∧ (ProjectImportService.cloneProgressUpdate
        (ProjectImportService.startAnalyzeJobRecord "u".data) 7 (some 7)
        []).percent ≤ 99 :=
  ⟨(C1_amended_progress.1 [] none).2
      ((DiffService.runStates DiffService.startDiffJobRecord [] none).getD 3
        DiffService.startDiffJobRecord)
      (by decide) (by decide),
    C1_amended_progress.2.1 _ 7 (some 7) []⟩

/-! ## Discovery characterization (C5) -/

/-- Names of the files whose containing directory is `d` (what the
`dir_map` entry for `d` collects). -/
def namesOf (d : Str) : List Str → List Str
  | [] => []
  | f :: fs =>
    if ProjectImportService.pathParent f = d then
      ProjectImportService.pathName f :: namesOf d fs
    else namesOf d fs

/-- Append to an optional dict entry, creating it when the suffix is
non-empty. -/
def appendOpt (o : Option (List Str)) (xs : List Str) : Option (List Str) :=
  match o, xs with
  | some vs, xs => some (vs ++ xs)
  | none, [] => none
  | none, xs => some xs

theorem insertAppend_dictGet (m : List (Str × List Str)) (d d' n : Str) :
    dictGet d (ProjectImportService.insertAppend m d' n) =
      if d' = d then some ((dictGet d m).getD [] ++ [n])
      else dictGet d m := by
  induction m with
  | nil =>
    by_cases h : d' = d <;>
      simp [ProjectImportService.insertAppend, dictGet, h]
  | cons hd tl ih =>
    obtain ⟨k, vs⟩ := hd
    by_cases hk : k = d'
    · subst hk
      by_cases h : k = d
      · subst h
        simp [ProjectImportService.insertAppend, dictGet]
      · have hne : ¬ k = d := h
        simp [ProjectImportService.insertAppend, dictGet, hne]
    · by_cases h : k = d
      · subst h
        have hne : ¬ d' = k := fun he => hk he.symm
        simp [ProjectImportService.insertAppend, dictGet, hk, hne]
      · simp [ProjectImportService.insertAppend, dictGet, hk, h, ih]

theorem appendOpt_append (o : Option (List Str)) (xs ys : List Str) :
    appendOpt (appendOpt o xs) ys = appendOpt o (xs ++ ys) := by
  rcases o with _ | vs
  · rcases xs with _ | ⟨x, xt⟩
    · rfl
    · rcases ys with _ | ⟨y, yt⟩ <;> simp [appendOpt]
  · rcases xs with _ | ⟨x, xt⟩ <;> rcases ys with _ | ⟨y, yt⟩ <;>
      simp [appendOpt]

theorem appendOpt_nil (o : Option (List Str)) : appendOpt o [] = o := by
  rcases o with _ | vs <;> simp [appendOpt]

theorem dirMap_foldl (files : List Str) :
    ∀ (m : List (Str × List Str)) (d : Str),
    dictGet d (files.foldl (fun m f =>
        ProjectImportService.insertAppend m (ProjectImportService.pathParent f)
          (ProjectImportService.pathName f)) m) =
      appendOpt (dictGet d m) (namesOf d files) := by
  induction files with
  | nil => intro m d; simp [namesOf, appendOpt_nil]
  | cons f fs ih =>
    intro m d
    rw [List.foldl_cons, ih, insertAppend_dictGet]
    by_cases h : ProjectImportService.pathParent f = d
    · rw [if_pos h]
      have hn : namesOf d (f :: fs) =
          ProjectImportService.pathName f :: namesOf d fs := by
        simp only [namesOf, if_pos h]
      rw [hn]
      rcases hget : dictGet d m with _ | vs
      · simp [appendOpt]
      · simp [appendOpt]
    · rw [if_neg h]
      have hn : namesOf d (f :: fs) = namesOf d fs := by
        simp only [namesOf, if_neg h]
      rw [hn]

theorem dirMap_dictGet (files : List Str) (d : Str) :
    dictGet d (ProjectImportService.dirMap files) =
      appendOpt none (namesOf d files) := by
  unfold ProjectImportService.dirMap
  rw [dirMap_foldl files [] d]
  rfl

theorem mem_namesOf (d n : Str) (files : List Str) :
    n ∈ namesOf d files ↔
      ∃ f ∈ files, ProjectImportService.pathParent f = d
        ∧ ProjectImportService.pathName f = n := by
  induction files with
  | nil => simp [namesOf]
  | cons f fs ih =>
    by_cases h : ProjectImportService.pathParent f = d
    · have hn : namesOf d (f :: fs) =
          ProjectImportService.pathName f :: namesOf d fs := by
        simp only [namesOf, if_pos h]
      rw [hn]
      constructor
      · intro hmem
        rcases List.mem_cons.mp hmem with rfl | h2
        · exact ⟨f, List.mem_cons_self f fs, h, rfl⟩
        · obtain ⟨g, hg, hgp, hgn⟩ := ih.mp h2
          exact ⟨g, List.mem_cons_of_mem f hg, hgp, hgn⟩
      · rintro ⟨g, hg, hgp, hgn⟩
        rcases List.mem_cons.mp hg with rfl | hg2
        · rw [← hgn]
          exact List.mem_cons_self _ _
        · exact List.mem_cons_of_mem _ (ih.mpr ⟨g, hg2, hgp, hgn⟩)
    · have hn : namesOf d (f :: fs) = namesOf d fs := by
        simp only [namesOf, if_neg h]
      rw [hn, ih]
      constructor
      · rintro ⟨g, hg, hgp, hgn⟩
        exact ⟨g, List.mem_cons_of_mem f hg, hgp, hgn⟩
      · rintro ⟨g, hg, hgp, hgn⟩
        rcases List.mem_cons.mp hg with rfl | hg2
        · exact absurd hgp h
        · exact ⟨g, hg2, hgp, hgn⟩

theorem insertAppend_keys_mem (m : List (Str × List Str)) (d n x : Str) :
    x ∈ (ProjectImportService.insertAppend m d n).map Prod.fst ↔
      x ∈ m.map Prod.fst ∨ x = d := by
  induction m with
  | nil => simp [ProjectImportService.insertAppend]
  | cons hd tl ih =>
    obtain ⟨k, vs⟩ := hd
    by_cases hk : k = d
    · have he : ProjectImportService.insertAppend ((k, vs) :: tl) d n =
          (k, vs ++ [n]) :: tl := by
        simp only [ProjectImportService.insertAppend, if_pos hk]
      rw [he]
      simp only [List.map_cons, List.mem_cons]
      subst hk
      tauto
    · have he : ProjectImportService.insertAppend ((k, vs) :: tl) d n =
          (k, vs) :: ProjectImportService.insertAppend tl d n := by
        simp only [ProjectImportService.insertAppend, if_neg hk]
      rw [he]
      simp only [List.map_cons, List.mem_cons, ih]
      tauto

theorem insertAppend_keys_nodup (m : List (Str × List Str)) (d n : Str)
    (h : (m.map Prod.fst).Nodup) :
    ((ProjectImportService.insertAppend m d n).map Prod.fst).Nodup := by
  induction m with
  | nil => simp [ProjectImportService.insertAppend]
  | cons hd tl ih =>
    obtain ⟨k, vs⟩ := hd
    simp only [List.map_cons, List.nodup_cons] at h
    by_cases hk : k = d
    · have he : ProjectImportService.insertAppend ((k, vs) :: tl) d n =
          (k, vs ++ [n]) :: tl := by
        simp only [ProjectImportService.insertAppend, if_pos hk]
      rw [he]
      simp only [List.map_cons, List.nodup_cons]
      exact h
    · have he : ProjectImportService.insertAppend ((k, vs) :: tl) d n =
          (k, vs) :: ProjectImportService.insertAppend tl d n := by
        simp only [ProjectImportService.insertAppend, if_neg hk]
      rw [he]
      simp only [List.map_cons, List.nodup_cons]
      refine ⟨?_, ih h.2⟩
      rw [insertAppend_keys_mem]
      rintro (hmem | rfl)
      · exact h.1 hmem
      · exact hk rfl

theorem dirMap_keys_nodup (files : List Str) :
    ((ProjectImportService.dirMap files).map Prod.fst).Nodup := by
  unfold ProjectImportService.dirMap
  suffices h : ∀ (m : List (Str × List Str)), (m.map Prod.fst).Nodup →
      ((files.foldl (fun m f =>
        ProjectImportService.insertAppend m (ProjectImportService.pathParent f)
          (ProjectImportService.pathName f)) m).map Prod.fst).Nodup by
    exact h [] (by simp)
  induction files with
  | nil => intro m hm; simpa using hm
  | cons f fs ih =>
    intro m hm
    rw [List.foldl_cons]
    exact ih _ (insertAppend_keys_nodup m _ _ hm)

theorem mem_iff_dictGet {α : Type} (m : List (Str × α))
    (h : (m.map Prod.fst).Nodup) (d : Str) (vs : α) :
    (d, vs) ∈ m ↔ dictGet d m = some vs := by
  induction m with
  | nil => simp [dictGet]
  | cons hd tl ih =>
    obtain ⟨k, ws⟩ := hd
    simp only [List.map_cons, List.nodup_cons] at h
    constructor
    · intro hmem
      rcases List.mem_cons.mp hmem with he | hmem2
      · rw [← he]
        simp [dictGet]
      · by_cases hk : k = d
        · subst hk
          exact absurd (List.mem_map.mpr ⟨(k, vs), hmem2, rfl⟩) h.1
        · simp only [dictGet, if_neg hk]
          exact (ih h.2).mp hmem2
    · intro hget
      unfold dictGet at hget
      by_cases hk : k = d
      · subst hk
        rw [if_pos rfl] at hget
        obtain rfl := Option.some_injective _ hget
        exact List.mem_cons_self _ _
      · rw [if_neg hk] at hget
        exact List.mem_cons_of_mem _ ((ih h.2).mpr hget)

/-- The exclusion test in terms of the path components. -/
theorem shouldExcludeDir_eq_false_iff (d : Str) :
    ProjectImportService.shouldExcludeDir d = false ↔
      (d = ".".data ∨ ∀ part ∈ pySplitChar '/' d,
        ProjectImportService.is_excluded_directory part = false) := by
  unfold ProjectImportService.shouldExcludeDir
  by_cases hd : d = ".".data
  · simp [hd]
  · simp [hd, List.any_eq_false]

/-- A directory appears as the `relative_path` of a discovered candidate
iff some file of the tree lives directly in it with the `.kicad_pro`
marker extension and the directory survives the exclusion test. -/
theorem discover_mem_iff (files : List Str) (d : Str) :
    (∃ p ∈ ProjectImportService.discover_projects_from_repo files,
      p.relative_path = d) ↔
    ((∃ f ∈ files, ProjectImportService.pathParent f = d
        ∧ pyEndsWith (ProjectImportService.pathName f) ".kicad_pro".data = true)
      ∧ ProjectImportService.shouldExcludeDir d = false) := by
  unfold ProjectImportService.discover_projects_from_repo
  dsimp only
  constructor
  · rintro ⟨p, hp, hrel⟩
    rw [mem_pySortBy] at hp
    obtain ⟨e, he, hpe⟩ := List.mem_flatMap.mp hp
    by_cases hex : ProjectImportService.shouldExcludeDir e.1
    · rw [if_pos hex] at hpe
      exact absurd hpe (List.not_mem_nil p)
    · rw [if_neg hex] at hpe
      obtain ⟨pro, hpro, hpeq⟩ := List.mem_map.mp hpe
      have hrel2 : p.relative_path = e.1 := by rw [← hpeq]
      have hd : e.1 = d := by rw [← hrel2, hrel]
      have hget : dictGet e.1 (ProjectImportService.dirMap files) = some e.2 :=
        (mem_iff_dictGet _ (dirMap_keys_nodup files) e.1 e.2).mp he
      rw [dirMap_dictGet] at hget
      have he2 : e.2 = namesOf e.1 files := by
        rcases hn : namesOf e.1 files with _ | ⟨x, xs⟩
        · rw [hn] at hget
          exact absurd hget (by simp [appendOpt])
        · rw [hn] at hget
          simp only [appendOpt] at hget
          exact (Option.some_injective _ hget).symm
      have hpro2 := List.mem_filter.mp hpro
      have hmem : pro ∈ namesOf e.1 files := he2 ▸ hpro2.1
      obtain ⟨f, hf, hfp, hfn⟩ := (mem_namesOf e.1 pro files).mp hmem
      rw [Bool.not_eq_true] at hex
      refine ⟨⟨f, hf, ?_, ?_⟩, ?_⟩
      · rw [hfp, hd]
      · rw [hfn]
        exact hpro2.2
      · rw [← hd]
        exact hex
  · rintro ⟨⟨f, hf, hfp, hfe⟩, hex⟩
    have hmem : ProjectImportService.pathName f ∈ namesOf d files :=
      (mem_namesOf _ _ _).mpr ⟨f, hf, hfp, rfl⟩
    have hne : namesOf d files ≠ [] := by
      intro h0
      rw [h0] at hmem
      exact absurd hmem (List.not_mem_nil _)
    have hget : dictGet d (ProjectImportService.dirMap files) =
        some (namesOf d files) := by
      rw [dirMap_dictGet]
      rcases hn : namesOf d files with _ | ⟨x, xs⟩
      · exact absurd hn hne
      · simp [appendOpt]
    have hmem2 : (d, namesOf d files) ∈ ProjectImportService.dirMap files :=
      (mem_iff_dictGet _ (dirMap_keys_nodup files) _ _).mpr hget
    refine ⟨{ name := ProjectImportService.stemOf
                (ProjectImportService.pathName f)
              relative_path := d
              full_path := []
              has_schematic := (namesOf d files).any
                (fun g => pyEndsWith g ".kicad_sch".data)
              has_pcb := (namesOf d files).any
                (fun g => pyEndsWith g ".kicad_pcb".data) }, ?_, rfl⟩
    rw [mem_pySortBy]
    refine List.mem_flatMap.mpr ⟨(d, namesOf d files), hmem2, ?_⟩
    rw [if_neg (by simp [hex])]
    exact List.mem_map.mpr ⟨ProjectImportService.pathName f,
      List.mem_filter.mpr ⟨hmem, hfe⟩, rfl⟩

/-- C5: repository analysis classifies as single-project (`type1`) iff
exactly one candidate is discovered and it sits at the tree root; and a
directory is a candidate iff it directly contains a `.kicad_pro` marker
file and no component of its full path is in the exclusion set
(hidden/archival/backup names) — the root `"."` is never excluded. -/
theorem C5_discovery_classification (files : List Str) (d : Str) :
    ((∃ p ∈ ProjectImportService.discover_projects_from_repo files,
        p.relative_path = d) ↔
      ((∃ f ∈ files, ProjectImportService.pathParent f = d
          ∧ pyEndsWith (ProjectImportService.pathName f)
              ".kicad_pro".data = true)
        ∧ (d = ".".data ∨ ∀ part ∈ pySplitChar '/' d,
            ProjectImportService.is_excluded_directory part = false)))
    ∧ (ProjectImportService.importTypeOf
        (ProjectImportService.discover_projects_from_repo files) =
          "type1".data ↔
      ((ProjectImportService.discover_projects_from_repo files).length = 1
        ∧ ∃ p ∈ ProjectImportService.discover_projects_from_repo files,
            p.relative_path = ".".data)) := by
  constructor
  · rw [discover_mem_iff, shouldExcludeDir_eq_false_iff]
  · cases hl : ProjectImportService.discover_projects_from_repo files with
    | nil =>
      constructor
      · intro h
        exact absurd h (by decide)
      · rintro ⟨h1, -⟩
        exact absurd h1 (by simp)
    | cons p tl =>
      cases tl with
      | nil =>
        by_cases hr : p.relative_path = ".".data
        · constructor
          · intro _
            exact ⟨rfl, p, List.mem_cons_self p [], hr⟩
          · intro _
            unfold ProjectImportService.importTypeOf
            dsimp only
            rw [if_pos hr]
        · constructor
          · intro h
            unfold ProjectImportService.importTypeOf at h
            dsimp only at h
            rw [if_neg hr] at h
            exact absurd h (by decide)
          · rintro ⟨-, q, hq, hqr⟩
            rcases List.mem_cons.mp hq with rfl | hq2
            · exact absurd hqr hr
            · exact absurd hq2 (List.not_mem_nil q)
      | cons q tl2 =>
        constructor
        · intro h
          have h2 : ProjectImportService.importTypeOf (p :: q :: tl2) =
              "type2".data := rfl
          rw [h2] at h
          exact absurd h (by decide)
        · rintro ⟨h1, -⟩
          simp at h1

/-- Witness for C5: a nested candidate survives the exclusion test while
an `archive/` candidate does not, and a lone root marker classifies as
`type1`. -/
theorem C5_witness :
    (∃ p ∈ ProjectImportService.discover_projects_from_repo
        ["boards/a/x.kicad_pro".data, "archive/y.kicad_pro".data,
          "readme.md".data],
      p.relative_path = "boards/a".data)
    ∧ ProjectImportService.importTypeOf
        (ProjectImportService.discover_projects_from_repo
          ["proj.kicad_pro".data, "proj.kicad_sch".data]) = "type1".data :=
  ⟨(C5_discovery_classification
      ["boards/a/x.kicad_pro".data, "archive/y.kicad_pro".data,
        "readme.md".data] "boards/a".data).1.mpr
      ⟨⟨"boards/a/x.kicad_pro".data, by decide, by decide, by decide⟩,
        by decide⟩,
    (C5_discovery_classification
      ["proj.kicad_pro".data, "proj.kicad_sch".data] ".".data).2.mpr
      ⟨by decide, by decide⟩⟩

end KiCadPrism

